import Mathlib

/-!
Verification development for the caddy-cloak bot-classification engine.

The Go sources are shallowly embedded: each Go struct becomes a Lean
structure, each method a pure function; methods that mutate their receiver
return the updated structure, and methods returning `(result, error)` pairs
return `result × Option String × state`.  Machine time (`time.Time`,
`time.Duration`) is modelled as `Int` nanoseconds, confidence scores
(`float64` constants of the source) as `ℚ`.  Go maps are modelled as
association lists (`List (String × V)`) resp. lists of keys for sets; map
iteration order, which Go leaves unspecified, is fixed to list order.
External collaborators of the code under verification (the DNS resolver,
`net/url.Parse`, compiled `regexp` values) are injected as total functions,
mirroring how the source treats them as opaque effectful dependencies.
Strings are Lean strings; Go byte indices coincide with the modelled
character indices on the ASCII inputs the checkers consume, and
`strings.ToLower` is modelled by ASCII case folding.
-/

namespace BotRedirect

/-- BotType of types.go (a string enum in the source). -/
inductive BotType where
  | search
  | social
  | crawler
  | monitoring
  | seo
  | unknown
deriving DecidableEq, Repr

/-- UserType of types.go. -/
inductive UserType where
  | bot
  | fromSearch
  | direct
deriving DecidableEq, Repr

/-! ## Association-list model of Go maps -/

/-- Lookup in a Go map modelled as an association list. -/
def alookup {V : Type} (m : List (String × V)) (k : String) : Option V :=
  (m.find? (fun p => p.1 == k)).map Prod.snd

/-- Go map assignment `m[k] = v`. -/
def aset {V : Type} (m : List (String × V)) (k : String) (v : V) : List (String × V) :=
  (k, v) :: m.filter (fun p => !(p.1 == k))

/-- Go map deletion `delete(m, k)`. -/
def adel {V : Type} (m : List (String × V)) (k : String) : List (String × V) :=
  m.filter (fun p => !(p.1 == k))

/-! ## Structural string primitives

Counterparts of the strings-package functions the source calls.  They are
written by structural recursion on character lists so that every checker
evaluates inside the kernel; the library versions recurse on byte
positions.  Case folding is ASCII (the checkers compare ASCII patterns).
-/

/-- ASCII strings.ToLower on one character. -/
def goCharToLower (c : Char) : Char :=
  if 'A' ≤ c ∧ c ≤ 'Z' then Char.ofNat (c.toNat + 32) else c

/-- strings.ToLower. -/
def goToLower (s : String) : String := ⟨s.data.map goCharToLower⟩

/-- Decimal reading of the strconv helpers (`dtoi`): every character a
digit, at least one. -/
def goToNat (s : String) : Option Nat :=
  if s.data ≠ [] ∧ s.data.all Char.isDigit then
    some (s.data.foldl (fun a c => a * 10 + (c.toNat - 48)) 0)
  else none

/-- Index of the first occurrence of `sep` (strings.Index). -/
def subIndex (sep : List Char) : List Char → Option Nat
  | [] => none
  | c :: cs => if sep.isPrefixOf (c :: cs) then some 0 else (subIndex sep cs).map (· + 1)

/-- Fuelled splitter behind `goSplit`; the fuel is an upper bound on the
number of separators, so it never runs out when primed with the length. -/
def splitSubAux (sep : List Char) : Nat → List Char → List (List Char)
  | 0, cs => [cs]
  | fuel + 1, cs =>
    match subIndex sep cs with
    | none => [cs]
    | some i => cs.take i :: splitSubAux sep fuel (cs.drop (i + sep.length))

/-- strings.Split with a non-empty separator. -/
def goSplit (s sep : String) : List String :=
  if sep.data = [] then [s]
  else (splitSubAux sep.data (s.data.length + 1) s.data).map (fun l => ⟨l⟩)

/-! ## Cache (cache.go)

The generic TTL cache shared by the orchestrator.  `interface{}` values are
modelled by a type parameter.  The background sweep goroutine runs the same
`cleanup` logic as the lazy path and is not needed by the claims.
-/

/-- CacheEntry of cache.go. -/
structure CacheEntry (V : Type) where
  Key : String
  Value : V
  CreatedAt : Int
  LastAccess : Int
  TTL : Int
  HitCount : Int
deriving DecidableEq, Repr

/-- Cache of cache.go (the store plus the configuration the accessors read;
counters and the sweep goroutine are observability only). -/
structure Cache (V : Type) where
  store : List (String × CacheEntry V)
  ttl : Int
  maxSize : Nat
deriving DecidableEq, Repr

/-- Cache.isExpired: an entry is expired iff `ttl > 0` and its age exceeds it. -/
def Cache.isExpired {V : Type} (_c : Cache V) (now : Int) (entry : CacheEntry V) : Bool :=
  if entry.TTL ≤ 0 then false
  else decide (now - entry.CreatedAt > entry.TTL)

/-- Cache.evictLRUUnsafe: drop the entry with the earliest last access, when
one is strictly earlier than `now` (the source initialises `oldestTime` with
`time.Now()` and only evicts a key whose access time is `Before` it). -/
def Cache.evictLRU {V : Type} (c : Cache V) (now : Int) : Cache V :=
  let best := c.store.foldl
    (fun acc p => if p.2.LastAccess < acc.2 then (p.1, p.2.LastAccess) else acc)
    ("", now)
  if best.1 = "" then c else { c with store := adel c.store best.1 }

/-- Cache.SetWithTTL of cache.go. -/
def Cache.SetWithTTL {V : Type} (c : Cache V) (key : String) (value : V)
    (ttl : Int) (now : Int) : Cache V :=
  let c1 := if c.store.length ≥ c.maxSize then c.evictLRU now else c
  { c1 with store := aset c1.store key ⟨key, value, now, now, ttl, 0⟩ }

/-- Cache.Get of cache.go: lazy expiry on read, access-time bump on hit. -/
def Cache.Get {V : Type} (c : Cache V) (key : String) (now : Int) :
    Option V × Cache V :=
  match alookup c.store key with
  | none => (none, c)
  | some entry =>
    if c.isExpired now entry then (none, { c with store := adel c.store key })
    else
      let entry2 := { entry with LastAccess := now, HitCount := entry.HitCount + 1 }
      (some entry.Value, { c with store := aset c.store key entry2 })

/-! ## RateLimiter token bucket (plugin.go) -/

/-- TokenBucket of plugin.go. -/
structure TokenBucket where
  capacity : Int
  tokens : Int
  refillRate : Int
  lastRefill : Int
deriving DecidableEq, Repr

/-- Nanoseconds of `time.Second`. -/
def nsPerSecond : Int := 1000000000

/-- TokenBucket.refill: add `int(elapsed.Seconds()) * refillRate` tokens,
capped at capacity, whenever at least one second has elapsed. -/
def TokenBucket.refill (tb : TokenBucket) (now : Int) : TokenBucket :=
  let elapsed := now - tb.lastRefill
  if elapsed ≥ nsPerSecond then
    let seconds := elapsed / nsPerSecond
    let tokensToAdd := seconds * tb.refillRate
    let t := tb.tokens + tokensToAdd
    { tb with tokens := if t > tb.capacity then tb.capacity else t, lastRefill := now }
  else tb

/-- TokenBucket.allowRequest: refill, then consume one token when available. -/
def TokenBucket.allowRequest (tb : TokenBucket) (now : Int) : Bool × TokenBucket :=
  let tb2 := tb.refill now
  if tb2.tokens > 0 then (true, { tb2 with tokens := tb2.tokens - 1 })
  else (false, tb2)

/-- RateLimiter.checkTokenBucket creates a missing bucket full, with
capacity, tokens and refill rate all equal to the configured maximum. -/
def newTokenBucket (maxRate : Int) (now : Int) : TokenBucket :=
  ⟨maxRate, maxRate, maxRate, now⟩

/-- Iterate `allowRequest` over a list of call instants, recording the
outcome and the bucket state after every call. -/
def allowTrace (tb : TokenBucket) : List Int → List (Bool × TokenBucket)
  | [] => []
  | t :: ts =>
    let r := tb.allowRequest t
    r :: allowTrace r.2 ts

/-- Invariant tying a bucket to the shape `checkTokenBucket` creates. -/
def BucketInv (tb : TokenBucket) : Prop :=
  0 ≤ tb.tokens ∧ tb.tokens ≤ tb.capacity ∧ 0 ≤ tb.refillRate ∧ 0 ≤ tb.capacity

/-! ## Model of the Go net package (IPs, CIDR networks, masks)

An `IP` is its Go byte-slice representation, a `List Nat` of length 4 or 16
with byte values below 256.  The text parsers follow the grammar the Go
standard library accepts (dotted quad without leading zeros; RFC 4291
colon-hex with one optional `::` and an optional trailing dotted quad, no
zone suffix).
-/

/-- Prefix marking an IPv4 address embedded in a 16-byte slice. -/
def v4InV6Prefix : List Nat := [0, 0, 0, 0, 0, 0, 0, 0, 0, 0, 255, 255]

/-- IP.To4 of the net package. -/
def ipTo4 (ip : List Nat) : Option (List Nat) :=
  if ip.length = 4 then some ip
  else if ip.length = 16 ∧ ip.take 12 = v4InV6Prefix then some (ip.drop 12)
  else none

/-- IP.Equal of the net package: equal byte-for-byte, or a 4-byte and a
16-byte form of the same IPv4 address. -/
def ipEqual (ip x : List Nat) : Bool :=
  if ip.length = x.length then ip == x
  else if ip.length = 4 ∧ x.length = 16 then
    decide (x.take 12 = v4InV6Prefix ∧ x.drop 12 = ip)
  else if ip.length = 16 ∧ x.length = 4 then
    decide (ip.take 12 = v4InV6Prefix ∧ ip.drop 12 = x)
  else false

/-- Byte list of `CIDRMask(ones, 8*l)`: full bytes of ones, one partial
byte, zero bytes. -/
def maskBytesAux : Nat → Nat → List Nat
  | _, 0 => []
  | n, l + 1 =>
    if 8 ≤ n then 255 :: maskBytesAux (n - 8) l
    else (255 - (255 >>> n)) :: maskBytesAux 0 l

/-- CIDRMask of the net package (callers only use `bits` 32 or 128). -/
def cidrMask (ones bits : Nat) : Option (List Nat) :=
  if ones ≤ bits then some (maskBytesAux ones (bits / 8)) else none

/-- Count of leading one bits of a single mask byte, `none` when the byte is
not of the form ones-then-zeros (the byte-level inner loops of the source's
`simpleMaskLength`, tabulated over the nine admissible byte values). -/
def byteOnes (v : Nat) : Option Nat :=
  if v = 0 then some 0
  else if v = 128 then some 1
  else if v = 192 then some 2
  else if v = 224 then some 3
  else if v = 240 then some 4
  else if v = 248 then some 5
  else if v = 252 then some 6
  else if v = 254 then some 7
  else none

/-- simpleMaskLength of the net package: prefix length of a contiguous
mask, `none` (the source's -1) otherwise. -/
def simpleMaskLength : List Nat → Option Nat
  | [] => some 0
  | v :: rest =>
    if v = 255 then (simpleMaskLength rest).map (8 + ·)
    else match byteOnes v with
      | none => none
      | some n => if rest.all (· == 0) then some n else none

/-- IPMask.Size, first component (0 for a non-contiguous mask). -/
def maskSize (m : List Nat) : Nat :=
  match simpleMaskLength m with
  | none => 0
  | some n => n

/-- IPNet of the net package. -/
structure IPNet where
  IP : List Nat
  Mask : List Nat
deriving DecidableEq, Repr

/-- Prefix length a network is sorted by (`Mask.Size()` of the source). -/
def netOnes (n : IPNet) : Nat := maskSize n.Mask

/-- networkNumberAndMask of the net package: align the network number and
mask to a common 4- or 16-byte width. -/
def networkNumberAndMask (n : IPNet) : Option (List Nat × List Nat) :=
  match ipTo4 n.IP with
  | some ip4 =>
    if n.Mask.length = 4 then some (ip4, n.Mask)
    else if n.Mask.length = 16 then some (ip4, n.Mask.drop 12)
    else none
  | none =>
    if n.IP.length ≠ 16 then none
    else if n.Mask.length = 16 then some (n.IP, n.Mask)
    else none

/-- IPNet.Contains of the net package. -/
def netContains (n : IPNet) (ip0 : List Nat) : Bool :=
  match networkNumberAndMask n with
  | none => false
  | some (nn, m) =>
    let ip := match ipTo4 ip0 with
      | some x => x
      | none => ip0
    if nn.length = ip.length then
      (List.zip (List.zip nn m) ip).all (fun p => (p.1.1 &&& p.1.2) == (p.2 &&& p.1.2))
    else false

/-- IP.Mask of the net package: width-adjust, then byte-wise and. -/
def maskApply (ip mask : List Nat) : Option (List Nat) :=
  let mask2 := if mask.length = 16 ∧ ip.length = 4 ∧ (mask.take 12).all (· == 255)
    then mask.drop 12 else mask
  let ip2 := if mask2.length = 4 ∧ ip.length = 16 ∧ ip.take 12 = v4InV6Prefix
    then ip.drop 12 else ip
  if ip2.length = mask2.length then
    some (List.zipWith (fun a b => a &&& b) ip2 mask2)
  else none

/-- Decimal octet of a dotted quad: one to three digits, no leading zero,
value at most 255. -/
def parseV4Byte (s : String) : Option Nat :=
  if s.length = 0 ∨ 3 < s.length then none
  else if 1 < s.length ∧ s.data.head? = some '0' then none
  else match goToNat s with
    | some n => if n ≤ 255 then some n else none
    | none => none

/-- Dotted-quad IPv4 parser (four octets, as Go accepts since 1.17). -/
def parseIPv4 (s : String) : Option (List Nat) :=
  match goSplit s "." with
  | [a, b, c, d] =>
    match parseV4Byte a, parseV4Byte b, parseV4Byte c, parseV4Byte d with
    | some x, some y, some z, some w => some [x, y, z, w]
    | _, _, _, _ => none
  | _ => none

/-- Hexadecimal digit value. -/
def parseHexDigit (c : Char) : Option Nat :=
  if '0' ≤ c ∧ c ≤ '9' then some (c.toNat - 48)
  else if 'a' ≤ c ∧ c ≤ 'f' then some (c.toNat - 87)
  else if 'A' ≤ c ∧ c ≤ 'F' then some (c.toNat - 55)
  else none

/-- Colon-hex group of an IPv6 address: one to four hex digits. -/
def parseHexGroup (s : String) : Option Nat :=
  if 1 ≤ s.length ∧ s.length ≤ 4 ∧ s.data.all (fun c => (parseHexDigit c).isSome) then
    some (s.data.foldl (fun a c => a * 16 + (parseHexDigit c).getD 0) 0)
  else none

/-- Big-endian bytes of a 16-bit group. -/
def groupBytes (g : Nat) : List Nat := [g / 256, g % 256]

/-- Bytes of a colon-separated group list whose final group may be a dotted
quad (the only position Go allows one). -/
def parseTailGroups : List String → Option (List Nat)
  | [] => some []
  | [g] =>
    if g.data.contains '.' then parseIPv4 g
    else (parseHexGroup g).map groupBytes
  | g :: rest =>
    if g.data.contains '.' then none
    else match parseHexGroup g, parseTailGroups rest with
      | some v, some bs => some (groupBytes v ++ bs)
      | _, _ => none

/-- RFC 4291 IPv6 text parser: at most one `::`, which must stand for at
least one zero group; no zone suffix. -/
def parseIPv6 (s : String) : Option (List Nat) :=
  if s.data.contains '%' then none
  else match goSplit s "::" with
  | [whole] =>
    match parseTailGroups (goSplit whole ":") with
    | some bs => if bs.length = 16 then some bs else none
    | none => none
  | [l, r] =>
    let lgs := if l = "" then [] else goSplit l ":"
    let rgs := if r = "" then [] else goSplit r ":"
    match lgs.mapM parseHexGroup, parseTailGroups rgs with
    | some lg, some rb =>
      let lb := (lg.map groupBytes).flatten
      if lb.length + rb.length ≤ 14 then
        some (lb ++ List.replicate (16 - lb.length - rb.length) 0 ++ rb)
      else none
    | _, _ => none
  | _ => none

/-- ParseIP of the net package: the first `.` or `:` selects the family;
a dotted quad is returned in its 16-byte embedded form. -/
def parseIP (s : String) : Option (List Nat) :=
  match s.data.find? (fun c => c == '.' || c == ':') with
  | some c =>
    if c = '.' then (parseIPv4 s).map (fun bs => v4InV6Prefix ++ bs)
    else parseIPv6 s
  | none => none

/-- ParseCIDR of the net package: the network with the host bits of the
address masked off; a 4-byte network for dotted-quad text. -/
def parseCIDR (s : String) : Option IPNet :=
  match goSplit s "/" with
  | [addr, maskStr] =>
    let fam : Option (List Nat × Nat) := match parseIPv4 addr with
      | some b4 => some (b4, 32)
      | none => match parseIPv6 addr with
        | some b16 => some (b16, 128)
        | none => none
    match fam with
    | none => none
    | some (ipb, bits) =>
      match goToNat maskStr with
      | none => none
      | some n =>
        if n ≤ bits then
          match cidrMask n bits with
          | some m =>
            match maskApply ipb m with
            | some masked => some ⟨masked, m⟩
            | none => none
          | none => none
        else none
  | _ => none

/-! ### Rendering (IP.String, IPNet.String) -/

/-- Lowercase hex digit. -/
def hexDigitChar (n : Nat) : Char :=
  if n < 10 then Char.ofNat (48 + n) else Char.ofNat (87 + n)

/-- Hex digits of a 16-bit group without leading zeros (five digits of fuel
suffice for values below 65536). -/
def hexStringAux : Nat → Nat → List Char
  | 0, _ => []
  | fuel + 1, n => if n = 0 then [] else hexStringAux fuel (n / 16) ++ [hexDigitChar (n % 16)]

/-- Group rendered in lowercase hex. -/
def hexGroupString (n : Nat) : String :=
  if n = 0 then "0" else ⟨hexStringAux 5 n⟩

/-- Bytes rendered as two lowercase hex digits each (IPMask.String). -/
def hexBytes (bs : List Nat) : String :=
  ⟨bs.foldr (fun b acc => hexDigitChar (b / 16 % 16) :: hexDigitChar (b % 16) :: acc) []⟩

/-- Dotted-quad rendering. -/
def ip4String (bs : List Nat) : String :=
  String.intercalate "." (bs.map toString)

/-- The 16-bit groups of a 16-byte address. -/
def toGroups : List Nat → List Nat
  | a :: b :: rest => (a * 256 + b) :: toGroups rest
  | _ => []

/-- Zero groups at the head of a group list. -/
def zeroRunLen (gs : List Nat) : Nat := (gs.takeWhile (· == 0)).length

/-- Leftmost longest run of zero groups of length at least two, the run the
source compresses to `::` (a strictly longer run displaces the incumbent). -/
def bestZeroRun (gs : List Nat) : Option (Nat × Nat) :=
  let cands := (List.range gs.length).map (fun i => (i, zeroRunLen (gs.drop i)))
  let best := cands.foldl
    (fun acc c => match acc with
      | none => if 0 < c.2 then some c else none
      | some b => if b.2 < c.2 then some c else acc)
    none
  match best with
  | some (i, l) => if 1 < l then some (i, l) else none
  | none => none

/-- RFC 5952 colon-hex rendering with `::` compression. -/
def ip6String (bs : List Nat) : String :=
  let gs := toGroups bs
  match bestZeroRun gs with
  | none => String.intercalate ":" (gs.map hexGroupString)
  | some (i, l) =>
    String.intercalate ":" ((gs.take i).map hexGroupString) ++ "::" ++
      String.intercalate ":" ((gs.drop (i + l)).map hexGroupString)

/-- IP.String of the net package. -/
def ipString (ip : List Nat) : String :=
  if ip.length = 0 then "<nil>"
  else match ipTo4 ip with
    | some b4 => ip4String b4
    | none => if ip.length = 16 then ip6String ip else "?" ++ hexBytes ip

/-- IPNet.String of the net package. -/
def netString (n : IPNet) : String :=
  match networkNumberAndMask n with
  | none => "<nil>"
  | some (nn, m) =>
    match simpleMaskLength m with
    | none => ipString nn ++ "/" ++ hexBytes m
    | some l => ipString nn ++ "/" ++ toString l

/-! ## Go string helpers

Helpers of the strings and net packages used by the checkers; byte
positions of the source are character positions here (identical on ASCII).
-/

/-- strings.Contains. -/
def strContains (s sub : String) : Bool :=
  s.data.tails.any (fun t => sub.data.isPrefixOf t)

/-- Index of the first occurrence of a character, strings.IndexByte. -/
def chIndex (s : String) (c : Char) : Option Nat :=
  s.data.findIdx? (· == c)

/-- Index of the last occurrence of a character (the net package's `last`). -/
def lastIndexChar (s : String) (c : Char) : Option Nat :=
  match (s.data.reverse.findIdx? (· == c)) with
  | none => none
  | some i => some (s.data.length - 1 - i)

/-- Slice `s[a:b]` of character positions. -/
def strSub (s : String) (a b : Nat) : String :=
  ⟨(s.data.drop a).take (b - a)⟩

/-- Slice `s[a:]`. -/
def strFrom (s : String) (a : Nat) : String :=
  ⟨s.data.drop a⟩

/-- net.SplitHostPort: split the last colon off, brackets around an IPv6
host; `none` stands for every error return of the source. -/
def splitHostPort (hostport : String) : Option (String × String) :=
  let cs := hostport.data
  match lastIndexChar hostport ':' with
  | none => none
  | some i =>
    if cs.head? = some '[' then
      match chIndex hostport ']' with
      | none => none
      | some end1 =>
        if end1 + 1 = cs.length then none
        else if end1 + 1 = i then
          if (cs.drop 1).contains '[' || (cs.drop (end1 + 1)).contains ']' then none
          else some (strSub hostport 1 end1, strFrom hostport (i + 1))
        else none
    else
      let host := strSub hostport 0 i
      if host.data.contains ':' then none
      else if cs.contains '[' || cs.contains ']' then none
      else some (host, strFrom hostport (i + 1))

/-- extractIP as defined identically in part_002 and plugin.go: strip a
bracketed IPv6 host, else strip a port, else return the address unchanged. -/
def extractIP (address : String) : String :=
  let bracketed : Option String :=
    if address.data.head? = some '[' then
      match chIndex address ']' with
      | some e => some (strSub address 1 e)
      | none => none
    else none
  match bracketed with
  | some h => h
  | none =>
    match splitHostPort address with
    | some (host, _) => host
    | none => address

/-! ## IPRangeChecker (part_002)

The zero value of the source's string-typed `BotType` in untouched result
fields is conflated with `BotTypeUnknown`; no code path branches on the
difference.
-/

/-- IPRangeMetadata of part_002 (the timestamp and source fields are
documentation only). -/
structure IPRangeMetadata where
  Organization : String
  Country : String
  botType : BotType
  Description : String
deriving DecidableEq, Repr

/-- IPCheckResult of part_002. -/
structure IPCheckResult where
  IsBot : Bool
  MatchedRange : String
  Organization : String
  botType : BotType
  Confidence : ℚ
  IPVersion : Nat
  Timestamp : Int
deriving DecidableEq, Repr

/-- IPRangeChecker of part_002 (statistics counters dropped). -/
structure IPRangeChecker where
  ipv4Networks : List IPNet
  ipv6Networks : List IPNet
  singleIPv4 : List String
  singleIPv6 : List String
  rangeMetadata : List (String × IPRangeMetadata)
  cache : List (String × IPCheckResult)
  cacheTTL : Int
  maxCache : Nat
deriving Repr

/-- Checker with empty rule state, as `NewIPRangeChecker` builds before
`initializeRanges` runs (`maxCache` is the source's constant 5000). -/
def emptyIPRangeChecker (cacheTTL : Int) : IPRangeChecker :=
  ⟨[], [], [], [], [], [], cacheTTL, 5000⟩

/-- IPRangeChecker.getOrganization. -/
def getOrganization (metadata : Option IPRangeMetadata) : String :=
  match metadata with
  | some m => if m.Organization ≠ "" then m.Organization else "Unknown"
  | none => "Unknown"

/-- IPRangeChecker.getBotType. -/
def getBotType (metadata : Option IPRangeMetadata) : BotType :=
  match metadata with
  | some m => m.botType
  | none => .unknown

/-- Comparator of `sortNetworks`: larger prefix length first. -/
def netGE (a b : IPNet) : Prop := netOnes b ≤ netOnes a

instance : DecidableRel netGE := fun _a _b => Nat.decLe _ _

instance : IsTotal IPNet netGE := ⟨fun a b => le_total (netOnes b) (netOnes a)⟩

instance : IsTrans IPNet netGE := ⟨fun _ _ _ hab hbc => le_trans hbc hab⟩

/-- IPRangeChecker.sortNetworks: sort both family lists by descending
prefix length.  The source uses `sort.Slice`, an unstable sort of which any
comparator-sorted permutation is an admissible outcome; insertion sort
realises one such outcome. -/
def IPRangeChecker.sortNetworks (irc : IPRangeChecker) : IPRangeChecker :=
  { irc with ipv4Networks := List.insertionSort netGE irc.ipv4Networks,
             ipv6Networks := List.insertionSort netGE irc.ipv6Networks }

/-- Loop body of `initializeRanges`: classify one configured entry as a
bare IP or a CIDR range of either family, skipping unparseable entries. -/
def addRangeEntry (irc : IPRangeChecker) (rangeStr : String) : IPRangeChecker :=
  if rangeStr = "" then irc
  else if !(strContains rangeStr "/") then
    match parseIP rangeStr with
    | none => irc
    | some ip =>
      if (ipTo4 ip).isSome then { irc with singleIPv4 := irc.singleIPv4 ++ [rangeStr] }
      else { irc with singleIPv6 := irc.singleIPv6 ++ [rangeStr] }
  else
    match parseCIDR rangeStr with
    | none => irc
    | some ipNet =>
      if (ipTo4 ipNet.IP).isSome then { irc with ipv4Networks := irc.ipv4Networks ++ [ipNet] }
      else { irc with ipv6Networks := irc.ipv6Networks ++ [ipNet] }

/-- IPRangeChecker.initializeRanges: reset the rule state, load every
entry, sort the network lists. -/
def IPRangeChecker.initializeRanges (irc : IPRangeChecker) (ranges : List String) :
    IPRangeChecker :=
  let base := { irc with ipv4Networks := [], ipv6Networks := [],
                          singleIPv4 := [], singleIPv6 := [] }
  (ranges.foldl addRangeEntry base).sortNetworks

/-- IPRangeChecker.performCheck: exact single-IP set first (confidence 1),
then the first containing network of the sorted family list (confidence
0.9), else not a bot; an unparseable address is never a bot. -/
def IPRangeChecker.performCheck (irc : IPRangeChecker) (ipStr : String) (now : Int) :
    IPCheckResult :=
  match parseIP ipStr with
  | none => ⟨false, "", "", .unknown, 0, 0, now⟩
  | some ip =>
    let v4 := (ipTo4 ip).isSome
    let ipVersion := if v4 then 4 else 6
    let networks := if v4 then irc.ipv4Networks else irc.ipv6Networks
    let singleIPs := if v4 then irc.singleIPv4 else irc.singleIPv6
    if singleIPs.contains ipStr then
      let metadata := alookup irc.rangeMetadata ipStr
      ⟨true, ipStr, getOrganization metadata, getBotType metadata, 1, ipVersion, now⟩
    else
      match networks.find? (fun network => netContains network ip) with
      | some network =>
        let rangeStr := netString network
        let metadata := alookup irc.rangeMetadata rangeStr
        ⟨true, rangeStr, getOrganization metadata, getBotType metadata, 9/10, ipVersion, now⟩
      | none => ⟨false, "", "", .unknown, 0, ipVersion, now⟩

/-- IPRangeChecker.getCachedResult: a fresh cached result, dropping a stale
entry. -/
def IPRangeChecker.getCachedResult (irc : IPRangeChecker) (ip : String) (now : Int) :
    Option IPCheckResult × IPRangeChecker :=
  match alookup irc.cache ip with
  | none => (none, irc)
  | some result =>
    if now - result.Timestamp < irc.cacheTTL then (some result, irc)
    else (none, { irc with cache := adel irc.cache ip })

/-- IPRangeChecker.cleanupCache: drop stale entries, then half the cache
when still over capacity (the source deletes in map order; list order
here). -/
def IPRangeChecker.cleanupCache (irc : IPRangeChecker) (now : Int) : IPRangeChecker :=
  let c1 := irc.cache.filter (fun p => !(decide (now - p.2.Timestamp > irc.cacheTTL)))
  let c2 := if c1.length ≥ irc.maxCache then c1.drop (c1.length / 2) else c1
  { irc with cache := c2 }

/-- IPRangeChecker.setCachedResult. -/
def IPRangeChecker.setCachedResult (irc : IPRangeChecker) (ip : String)
    (result : IPCheckResult) (now : Int) : IPRangeChecker :=
  let irc1 := if irc.cache.length ≥ irc.maxCache then irc.cleanupCache now else irc
  { irc1 with cache := aset irc1.cache ip result }

/-- IPRangeChecker.IsBot of part_002: empty input short-circuits, then the
cache, then `performCheck` on the port-stripped address; the error
component of the Go return is always nil. -/
def IPRangeChecker.IsBot (irc : IPRangeChecker) (ipStr : String) (now : Int) :
    IPCheckResult × Option String × IPRangeChecker :=
  if ipStr = "" then (⟨false, "", "", .unknown, 0, 0, now⟩, none, irc)
  else
    let cleanIP := extractIP ipStr
    match irc.getCachedResult cleanIP now with
    | (some result, irc1) => (result, none, irc1)
    | (none, irc1) =>
      let result := irc1.performCheck cleanIP now
      (result, none, irc1.setCachedResult cleanIP result now)

/-! ## Compiled regular expressions

A compiled `regexp.Regexp` is abstracted as its pattern string together
with a total boolean matcher, the way every checker consumes one; the
engine itself is outside the embedded code.
-/

/-- Compiled regexp value: pattern source and `MatchString`. -/
structure GoRegex where
  pattern : String
  matchString : String → Bool

/-! ## UserAgentMatcher (config.go) -/

/-- UserAgentResult of config.go. -/
structure UserAgentResult where
  IsBot : Bool
  MatchedPattern : String
  botType : BotType
  Confidence : ℚ
  Timestamp : Int
deriving DecidableEq, Repr

/-- UserAgentMatcher of config.go (statistics counters dropped). -/
structure UserAgentMatcher where
  botPatterns : List String
  compiledRegexps : List GoRegex
  exactMatches : List String
  containsMatches : List String
  cache : List (String × UserAgentResult)
  cacheTTL : Int
  maxCache : Nat

/-- UserAgentMatcher.determineBotType: keyword heuristics of config.go. -/
def determineBotType (userAgent : String) : BotType :=
  let userAgentLower := goToLower userAgent
  let searchBots := ["googlebot", "bingbot", "yandexbot", "duckduckbot", "baiduspider",
    "sogou", "360spider", "slurp", "crawler", "spider"]
  if searchBots.any (fun bot => strContains userAgentLower bot) then .search
  else
    let socialBots := ["facebookexternalhit", "twitterbot", "linkedinbot", "whatsapp",
      "telegrambot", "vkshare", "applebot", "skypeuripreview"]
    if socialBots.any (fun bot => strContains userAgentLower bot) then .social
    else
      let seoBots := ["ahrefs", "semrush", "moz", "majestic", "screaming"]
      if seoBots.any (fun bot => strContains userAgentLower bot) then .seo
      else
        let monitoringBots := ["pingdom", "uptimerobot", "monitor", "check", "test"]
        if monitoringBots.any (fun bot => strContains userAgentLower bot) then .monitoring
        else if strContains userAgentLower "bot" || strContains userAgentLower "crawl" ||
            strContains userAgentLower "spider" then .crawler
        else .unknown

/-- UserAgentMatcher.performCheck of config.go: exact set, then substring
list, then compiled regexes, first match wins. -/
def UserAgentMatcher.performCheck (uam : UserAgentMatcher) (userAgent : String)
    (now : Int) : UserAgentResult :=
  let userAgentLower := goToLower userAgent
  if uam.exactMatches.contains userAgentLower then
    ⟨true, userAgentLower, determineBotType userAgent, 1, now⟩
  else
    match uam.containsMatches.find? (fun pattern => strContains userAgentLower pattern) with
    | some pattern => ⟨true, pattern, determineBotType userAgent, 9/10, now⟩
    | none =>
      match uam.compiledRegexps.find? (fun regex => regex.matchString userAgent) with
      | some regex => ⟨true, regex.pattern, determineBotType userAgent, 8/10, now⟩
      | none => ⟨false, "", .unknown, 0, now⟩

/-- UserAgentMatcher.getCachedResult. -/
def UserAgentMatcher.getCachedResult (uam : UserAgentMatcher) (userAgent : String)
    (now : Int) : Option UserAgentResult × UserAgentMatcher :=
  match alookup uam.cache userAgent with
  | none => (none, uam)
  | some result =>
    if now - result.Timestamp < uam.cacheTTL then (some result, uam)
    else (none, { uam with cache := adel uam.cache userAgent })

/-- UserAgentMatcher.cleanupCacheUnsafe. -/
def UserAgentMatcher.cleanupCache (uam : UserAgentMatcher) (now : Int) : UserAgentMatcher :=
  let c1 := uam.cache.filter (fun p => !(decide (now - p.2.Timestamp > uam.cacheTTL)))
  let c2 := if c1.length ≥ uam.maxCache then c1.drop (c1.length / 2) else c1
  { uam with cache := c2 }

/-- UserAgentMatcher.setCachedResult. -/
def UserAgentMatcher.setCachedResult (uam : UserAgentMatcher) (userAgent : String)
    (result : UserAgentResult) (now : Int) : UserAgentMatcher :=
  let uam1 := if uam.cache.length ≥ uam.maxCache then uam.cleanupCache now else uam
  { uam1 with cache := aset uam1.cache userAgent result }

/-- UserAgentMatcher.IsBot of config.go: an empty user agent is never a
bot; otherwise cache, then `performCheck`; the error of the Go return is
always nil. -/
def UserAgentMatcher.IsBot (uam : UserAgentMatcher) (userAgent : String) (now : Int) :
    UserAgentResult × Option String × UserAgentMatcher :=
  if userAgent = "" then (⟨false, "", .unknown, 0, now⟩, none, uam)
  else
    match uam.getCachedResult userAgent now with
    | (some result, uam1) => (result, none, uam1)
    | (none, uam1) =>
      let result := uam1.performCheck userAgent now
      (result, none, uam1.setCachedResult userAgent result now)

/-! ## ReferrerChecker (referrer_checker.go)

`net/url.Parse` together with `URL.Hostname()` and `URL.Query().Get` is
abstracted as an injected parser returning the hostname and a query
accessor; the disabled checker of the source carries zero values, whose
empty `ReferrerType` string is conflated with `unknown` (never branched
on).
-/

/-- ReferrerType of referrer_checker.go. -/
inductive ReferrerType where
  | empty
  | searchEngine
  | socialMedia
  | directLink
  | internal
  | malformed
  | unknown
deriving DecidableEq, Repr

/-- Parsed URL surface consumed by the checker. -/
structure GoURL where
  hostname : String
  queryGet : String → String

/-- ReferrerResult of referrer_checker.go. -/
structure ReferrerResult where
  IsFromSearch : Bool
  SearchEngine : String
  Domain : String
  OriginalURL : String
  MatchedPattern : String
  Confidence : ℚ
  ReferrerType : ReferrerType
  QueryParameters : List (String × String)
  Timestamp : Int

/-- ReferrerChecker of referrer_checker.go (statistics dropped). -/
structure ReferrerChecker where
  enabled : Bool
  allowedDomains : List String
  compiledPatterns : List GoRegex
  exactDomains : List String
  wildcardDomains : List String
  cache : List (String × ReferrerResult)
  cacheTTL : Int
  maxCache : Nat
  urlParse : String → Option GoURL

/-- strings.HasPrefix. -/
def strHasPrefix (s pre : String) : Bool := pre.data.isPrefixOf s.data

/-- strings.HasSuffix. -/
def strHasSuffix (s suf : String) : Bool := suf.data.isSuffixOf s.data

/-- ReferrerChecker.isExactDomain. -/
def isExactDomain (domain : String) : Bool :=
  !(strContains domain "*") && !(strContains domain "?") &&
    !(strContains domain "[") && !(strContains domain "(")

/-- ReferrerChecker.isWildcardDomain. -/
def isWildcardDomain (domain : String) : Bool :=
  strContains domain "*" && !(strContains domain "?") &&
    !(strContains domain "[") && !(strContains domain "(")

/-- Characters regexp.QuoteMeta escapes. -/
def regexSpecialChars : List Char :=
  ['\\', '.', '+', '*', '?', '(', ')', '|', '[', ']', Char.ofNat 123, Char.ofNat 125, '^', '$']

/-- regexp.QuoteMeta. -/
def quoteMeta (s : String) : String :=
  ⟨s.data.foldr (fun c acc =>
    if regexSpecialChars.contains c then '\\' :: c :: acc else c :: acc) []⟩

/-- Replacement of the escaped star by `.*` (strings.ReplaceAll over the
quoted pattern). -/
def replaceEscapedStar : List Char → List Char
  | [] => []
  | '\\' :: '*' :: rest => '.' :: '*' :: replaceEscapedStar rest
  | c :: rest => c :: replaceEscapedStar rest

/-- ReferrerChecker.convertToRegex. -/
def convertToRegex (domain : String) : String :=
  "^" ++ (⟨replaceEscapedStar (quoteMeta domain).data⟩ : String) ++ "$"

/-- ReferrerChecker.initializePatterns: classify each configured domain as
exact, wildcard or regex (compiled through the injected compiler; a failed
compile skips the pattern). -/
def ReferrerChecker.initializePatterns (rc : ReferrerChecker) (domains : List String)
    (compile : String → Option GoRegex) : ReferrerChecker :=
  let base := { rc with allowedDomains := [], compiledPatterns := [],
                        exactDomains := [], wildcardDomains := [] }
  domains.foldl (fun acc domain =>
    if domain = "" then acc
    else
      let acc1 := { acc with allowedDomains := acc.allowedDomains ++ [domain] }
      if isExactDomain domain then
        { acc1 with exactDomains := acc1.exactDomains ++ [goToLower domain] }
      else if isWildcardDomain domain then
        { acc1 with wildcardDomains := acc1.wildcardDomains ++ [goToLower domain] }
      else
        match compile ("(?i)" ++ convertToRegex domain) with
        | some regex => { acc1 with compiledPatterns := acc1.compiledPatterns ++ [regex] }
        | none => acc1) base

/-- NewReferrerChecker: the disabled flag short-circuits construction with
a zero-valued checker; otherwise the configured domains (or the default
table, passed in here) are classified. -/
def NewReferrerChecker (enableReferrerCheck : Bool) (allowedReferrers : List String)
    (defaultAllowedReferrers : List String) (cacheTTL : Int)
    (compile : String → Option GoRegex) (urlParse : String → Option GoURL) :
    ReferrerChecker :=
  if !enableReferrerCheck then
    ⟨false, [], [], [], [], [], 0, 0, urlParse⟩
  else
    let rc : ReferrerChecker := ⟨true, [], [], [], [], [], cacheTTL, 3000, urlParse⟩
    let domains := if allowedReferrers = [] then defaultAllowedReferrers else allowedReferrers
    rc.initializePatterns domains compile

/-- Scan of the middle parts of `simpleWildcardMatch`. -/
def scanParts : List Char → List String → Bool
  | _, [] => true
  | txt, p :: ps =>
    match subIndex p.data txt with
    | none => false
    | some i => scanParts (txt.drop (i + p.data.length)) ps

/-- ReferrerChecker.simpleWildcardMatch. -/
def simpleWildcardMatch (text pattern : String) : Bool :=
  let parts := goSplit pattern "*"
  match parts with
  | [] => text == pattern
  | [_single] => text == pattern
  | first :: rest =>
    let last := (rest.getLast? ).getD ""
    let middle := rest.dropLast
    if !(strHasPrefix text first) then false
    else if !(strHasSuffix text last) then false
    else
      let searchText := (text.data.drop first.data.length).take
        (text.data.length - last.data.length - first.data.length)
      scanParts searchText middle

/-- ReferrerChecker.matchWildcard: the `*.domain` and `domain.*` fast paths
plus the general multi-star matcher. -/
def matchWildcard (hostname pattern : String) : Bool :=
  if pattern == "*" then true
  else if strHasPrefix pattern "*." then
    let suffix := strFrom pattern 2
    hostname == suffix || strHasSuffix hostname ("." ++ suffix)
  else if strHasSuffix pattern ".*" then
    let pre := strSub pattern 0 (pattern.data.length - 2)
    hostname == pre || strHasPrefix hostname (pre ++ ".")
  else simpleWildcardMatch hostname pattern

/-- Search-engine table of `identifySearchEngine`, in source order. -/
def searchEngines : List (String × String) :=
  [("google.com", "Google"), ("google.ru", "Google"), ("google.de", "Google"),
   ("google.fr", "Google"), ("google.co.uk", "Google"), ("google.it", "Google"),
   ("google.es", "Google"), ("google.ca", "Google"), ("google.com.au", "Google"),
   ("google.co.jp", "Google"), ("google.co.kr", "Google"), ("google.com.br", "Google"),
   ("bing.com", "Bing"), ("msn.com", "Bing"), ("live.com", "Bing"),
   ("yandex.ru", "Yandex"), ("yandex.com", "Yandex"), ("yandex.ua", "Yandex"),
   ("yandex.by", "Yandex"), ("yandex.kz", "Yandex"), ("ya.ru", "Yandex"),
   ("duckduckgo.com", "DuckDuckGo"), ("yahoo.com", "Yahoo"), ("search.yahoo.com", "Yahoo"),
   ("baidu.com", "Baidu"), ("sogou.com", "Sogou"), ("so.com", "360 Search"),
   ("ask.com", "Ask"), ("aol.com", "AOL"), ("ecosia.org", "Ecosia"),
   ("startpage.com", "Startpage"), ("searx.me", "SearX")]

/-- ReferrerChecker.identifySearchEngine. -/
def identifySearchEngine (hostname : String) : String :=
  match alookup searchEngines hostname with
  | some engine => engine
  | none =>
    match searchEngines.find? (fun p => strHasSuffix hostname ("." ++ p.1)) with
    | some p => p.2
    | none =>
      if strContains hostname "google" then "Google"
      else if strContains hostname "bing" || strContains hostname "msn" then "Bing"
      else if strContains hostname "yandex" then "Yandex"
      else if strContains hostname "yahoo" then "Yahoo"
      else if strContains hostname "baidu" then "Baidu"
      else "Unknown Search Engine"

/-- ReferrerChecker.extractQueryParameters. -/
def extractQueryParameters (parsedURL : GoURL) : List (String × String) :=
  let queryParams := ["q", "query", "search", "p", "text", "wd", "w", "s"]
  let additionalParams := ["hl", "gl", "lr", "ie", "oe", "safe", "tbm"]
  (queryParams ++ additionalParams).foldl (fun acc param =>
    if parsedURL.queryGet param ≠ "" then acc ++ [(param, parsedURL.queryGet param)]
    else acc) []

/-- ReferrerChecker.classifyUnknownReferrer. -/
def classifyUnknownReferrer (hostname : String) : ReferrerType :=
  let socialDomains := ["facebook.com", "twitter.com", "x.com", "instagram.com",
    "linkedin.com", "pinterest.com", "reddit.com", "tiktok.com", "snapchat.com",
    "whatsapp.com", "telegram.org", "vk.com", "ok.ru", "youtube.com", "twitch.tv"]
  if socialDomains.any (fun domain =>
      hostname == domain || strHasSuffix hostname ("." ++ domain)) then
    .socialMedia
  else .directLink

/-- ReferrerChecker.performCheck of referrer_checker.go. -/
def ReferrerChecker.performCheck (rc : ReferrerChecker) (referrer : String)
    (now : Int) : ReferrerResult :=
  match rc.urlParse referrer with
  | none => ⟨false, "", "", referrer, "", 1, .malformed, [], now⟩
  | some parsedURL =>
    let hostname := goToLower parsedURL.hostname
    if hostname = "" then ⟨false, "", "", referrer, "", 1, .malformed, [], now⟩
    else if rc.exactDomains.contains hostname then
      ⟨true, identifySearchEngine hostname, hostname, referrer, hostname, 1,
       .searchEngine, extractQueryParameters parsedURL, now⟩
    else
      match rc.wildcardDomains.find? (fun pattern => matchWildcard hostname pattern) with
      | some pattern =>
        ⟨true, identifySearchEngine hostname, hostname, referrer, pattern, 9/10,
         .searchEngine, extractQueryParameters parsedURL, now⟩
      | none =>
        match rc.compiledPatterns.find? (fun regex => regex.matchString hostname) with
        | some regex =>
          ⟨true, identifySearchEngine hostname, hostname, referrer, regex.pattern, 8/10,
           .searchEngine, extractQueryParameters parsedURL, now⟩
        | none =>
          ⟨false, "", hostname, referrer, "", 9/10, classifyUnknownReferrer hostname,
           extractQueryParameters parsedURL, now⟩

/-- ReferrerChecker.getCachedResult. -/
def ReferrerChecker.getCachedResult (rc : ReferrerChecker) (referrer : String)
    (now : Int) : Option ReferrerResult × ReferrerChecker :=
  match alookup rc.cache referrer with
  | none => (none, rc)
  | some result =>
    if now - result.Timestamp < rc.cacheTTL then (some result, rc)
    else (none, { rc with cache := adel rc.cache referrer })

/-- ReferrerChecker.cleanupCache. -/
def ReferrerChecker.cleanupCache (rc : ReferrerChecker) (now : Int) : ReferrerChecker :=
  let c1 := rc.cache.filter (fun p => !(decide (now - p.2.Timestamp > rc.cacheTTL)))
  let c2 := if c1.length ≥ rc.maxCache then c1.drop (c1.length / 2) else c1
  { rc with cache := c2 }

/-- ReferrerChecker.setCachedResult. -/
def ReferrerChecker.setCachedResult (rc : ReferrerChecker) (referrer : String)
    (result : ReferrerResult) (now : Int) : ReferrerChecker :=
  let rc1 := if rc.cache.length ≥ rc.maxCache then rc.cleanupCache now else rc
  { rc1 with cache := aset rc1.cache referrer result }

/-- ReferrerChecker.CheckReferrer of referrer_checker.go: a disabled
checker permits everything (`IsFromSearch: true` with zero values), an
empty referrer is `ReferrerTypeEmpty`, otherwise cache then
`performCheck`; the error of the Go return is always nil. -/
def ReferrerChecker.CheckReferrer (rc : ReferrerChecker) (referrer : String)
    (now : Int) : ReferrerResult × Option String × ReferrerChecker :=
  if !rc.enabled then (⟨true, "", "", "", "", 0, .unknown, [], 0⟩, none, rc)
  else if referrer = "" then
    (⟨false, "", "", "", "", 1, .empty, [], now⟩, none, rc)
  else
    match rc.getCachedResult referrer now with
    | (some result, rc1) => (result, none, rc1)
    | (none, rc1) =>
      let result := rc1.performCheck referrer now
      (result, none, rc1.setCachedResult referrer result now)

/-! ## ReverseDNSChecker (plugin.go)

The resolver is injected: `lookupAddr` models `Resolver.LookupAddr` (the
PTR hostnames or a resolver error), `lookupIPAddr` models
`Resolver.LookupIPAddr` (the rendered forward addresses or an error).  The
worker pool, queues and timeouts are summarised by a `DNSOutcome`: the
enqueue attempt either times out against a full queue, or the caller wait
times out, or the worker's result is delivered; in the delivered case the
result is exactly `processJob` of the submitted IP, which is what the
worker computes and the response channel carries. -/

/-- DNSCheckResult of plugin.go. -/
structure DNSCheckResult where
  IsBot : Bool
  Hostname : String
  VerifiedIP : String
  Organization : String
  botType : BotType
  Confidence : ℚ
  Error : String
  Duration : Int
  Timestamp : Int
deriving DecidableEq, Repr

/-- DNSResult of plugin.go (the job reference is summarised by its IP). -/
structure DNSResult where
  JobIP : String
  Hostname : String
  VerifiedIP : String
  IsValid : Bool
  botType : BotType
  Error : Option String
  Duration : Int
  Timestamp : Int

/-- ReverseDNSChecker of plugin.go (pool bookkeeping dropped; `maxCache`
is the source's constant 2000). -/
structure ReverseDNSChecker where
  enabled : Bool
  timeout : Int
  cache : List (String × DNSCheckResult)
  cacheTTL : Int
  maxCache : Nat
  botDomainPatterns : List (BotType × List GoRegex)
  lookupAddr : String → Option (List String)
  lookupIPAddr : String → Option (List String)

/-- How the asynchronous check resolves for the caller. -/
inductive DNSOutcome where
  | queueFull
  | timedOut
  | delivered

/-- strings.TrimRight for one character. -/
def trimRightChar (s : String) (c : Char) : String :=
  ⟨(s.data.reverse.dropWhile (· == c)).reverse⟩

/-- ReverseDNSChecker.lookupHostname: first PTR name, trailing dot
stripped. -/
def ReverseDNSChecker.lookupHostname (rdns : ReverseDNSChecker) (ip : String) :
    Except String String :=
  match rdns.lookupAddr ip with
  | none => .error "PTR lookup failed"
  | some [] => .error "no PTR records found"
  | some (h :: _) => .ok (trimRightChar h '.')

/-- ReverseDNSChecker.lookupIP: first forward address. -/
def ReverseDNSChecker.lookupIP (rdns : ReverseDNSChecker) (hostname : String) :
    Except String String :=
  match rdns.lookupIPAddr hostname with
  | none => .error "A/AAAA lookup failed"
  | some [] => .error "no A/AAAA records found"
  | some (ip :: _) => .ok ip

/-- ReverseDNSChecker.verifyIPMatch: exact string equality or equality of
the parsed addresses. -/
def verifyIPMatch (originalIP verifiedIP : String) : Bool :=
  if originalIP == verifiedIP then true
  else
    match parseIP originalIP, parseIP verifiedIP with
    | some origIP, some verIP => ipEqual origIP verIP
    | _, _ => false

/-- ReverseDNSChecker.determineBotTypeByHostname: first category whose
pattern list matches the lowercased hostname (map order fixed to list
order; the claims depend only on whether any category matches). -/
def ReverseDNSChecker.determineBotTypeByHostname (rdns : ReverseDNSChecker)
    (hostname : String) : BotType :=
  let h := goToLower hostname
  match rdns.botDomainPatterns.find? (fun p => p.2.any (fun pattern => pattern.matchString h)) with
  | some p => p.1
  | none => .unknown

/-- DNSWorker.processJob of plugin.go: PTR, then forward, then the
round-trip verification and the hostname classification; validity demands
both the IP match and a known category. -/
def processJob (rdns : ReverseDNSChecker) (jobIP : String) (now : Int) : DNSResult :=
  match rdns.lookupHostname jobIP with
  | .error e => ⟨jobIP, "", "", false, .unknown, some e, 0, now⟩
  | .ok hostname =>
    match rdns.lookupIP hostname with
    | .error e => ⟨jobIP, hostname, "", false, .unknown, some e, 0, now⟩
    | .ok verifiedIP =>
      let isValid := verifyIPMatch jobIP verifiedIP
      let bt := rdns.determineBotTypeByHostname hostname
      ⟨jobIP, hostname, verifiedIP, isValid && decide (bt ≠ .unknown), bt, none, 0, now⟩

/-- ReverseDNSChecker.getOrganizationByBotType. -/
def getOrganizationByBotType (botType : BotType) : String :=
  match botType with
  | .search => "Search Engine"
  | .social => "Social Media"
  | .seo => "SEO Tool"
  | .monitoring => "Monitoring Service"
  | .crawler => "Web Crawler"
  | .unknown => "Unknown"

/-- ReverseDNSChecker.processDNSResult of plugin.go: a resolver error or a
failed validation is not a bot; a valid result is a bot at confidence
0.95. -/
def ReverseDNSChecker.processDNSResult (_rdns : ReverseDNSChecker)
    (dnsResult : DNSResult) : DNSCheckResult :=
  match dnsResult.Error with
  | some e =>
    ⟨false, "", "", "", .unknown, 0, e, dnsResult.Duration, dnsResult.Timestamp⟩
  | none =>
    if dnsResult.IsValid then
      ⟨true, dnsResult.Hostname, dnsResult.VerifiedIP,
       getOrganizationByBotType dnsResult.botType, dnsResult.botType, 19/20, "",
       dnsResult.Duration, dnsResult.Timestamp⟩
    else
      ⟨false, dnsResult.Hostname, "", "", .unknown, 0, "",
       dnsResult.Duration, dnsResult.Timestamp⟩

/-- ReverseDNSChecker.getCachedResult. -/
def ReverseDNSChecker.getCachedResult (rdns : ReverseDNSChecker) (ip : String)
    (now : Int) : Option DNSCheckResult × ReverseDNSChecker :=
  match alookup rdns.cache ip with
  | none => (none, rdns)
  | some result =>
    if now - result.Timestamp < rdns.cacheTTL then (some result, rdns)
    else (none, { rdns with cache := adel rdns.cache ip })

/-- ReverseDNSChecker.cleanupCacheUnsafe. -/
def ReverseDNSChecker.cleanupCache (rdns : ReverseDNSChecker) (now : Int) :
    ReverseDNSChecker :=
  let c1 := rdns.cache.filter (fun p => !(decide (now - p.2.Timestamp > rdns.cacheTTL)))
  let c2 := if c1.length ≥ rdns.maxCache then c1.drop (c1.length / 2) else c1
  { rdns with cache := c2 }

/-- ReverseDNSChecker.setCachedResult. -/
def ReverseDNSChecker.setCachedResult (rdns : ReverseDNSChecker) (ip : String)
    (result : DNSCheckResult) (now : Int) : ReverseDNSChecker :=
  let rdns1 := if rdns.cache.length ≥ rdns.maxCache then rdns.cleanupCache now else rdns
  { rdns1 with cache := aset rdns1.cache ip result }

/-- ReverseDNSChecker.CheckDNS of plugin.go: disabled or empty input is
not a bot; a fresh cached verdict is returned as is; otherwise the
asynchronous check runs, and each of the three outcomes — queue full on
enqueue, caller timeout, worker result — produces a result that is stored
in the cache under the cleaned IP. -/
def ReverseDNSChecker.CheckDNS (rdns : ReverseDNSChecker) (ip : String) (now : Int)
    (outcome : DNSOutcome) : DNSCheckResult × Option String × ReverseDNSChecker :=
  if !rdns.enabled then (⟨false, "", "", "", .unknown, 0, "", 0, 0⟩, none, rdns)
  else if ip = "" then (⟨false, "", "", "", .unknown, 0, "", 0, 0⟩, none, rdns)
  else
    let cleanIP := extractIP ip
    match rdns.getCachedResult cleanIP now with
    | (some result, rdns1) => (result, none, rdns1)
    | (none, rdns1) =>
      match outcome with
      | .queueFull =>
        let result : DNSCheckResult := ⟨false, "", "", "", .unknown, 0, "DNS queue full", 0, now⟩
        (result, none, rdns1.setCachedResult cleanIP result now)
      | .timedOut =>
        let result : DNSCheckResult := ⟨false, "", "", "", .unknown, 0, "DNS timeout", rdns1.timeout, now⟩
        (result, none, rdns1.setCachedResult cleanIP result now)
      | .delivered =>
        let result := rdns1.processDNSResult (processJob rdns1 cleanIP now)
        (result, none, rdns1.setCachedResult cleanIP result now)

/-! ## BotDetector orchestrator (bot_detector.go)

The request carries the three fields the detector reads; the
`ProcessingTime` and `Details` diagnostics of `DetectionResult` are
dropped (observability only).
-/

/-- Fields of the http.Request the detector consumes. -/
structure Request where
  RemoteAddr : String
  UserAgent : String
  Referer : String

/-- DetectionResult of bot_detector.go. -/
structure DetectionResult where
  IsBot : Bool
  UserType : UserType
  DetectionMethod : String
  Confidence : ℚ
  MatchedPattern : String
  Timestamp : Int

/-- BotDetector of bot_detector.go: the four checkers plus the two config
flags the cascade reads. -/
structure BotDetector where
  userAgentMatcher : Option UserAgentMatcher
  ipRangeChecker : Option IPRangeChecker
  reverseDNSChecker : Option ReverseDNSChecker
  referrerChecker : Option ReferrerChecker
  enableReverseDNS : Bool
  enableReferrerCheck : Bool
  cacheTTL : Int

/-- Fallback branch of `determineUserType`: empty referrer is a direct
user at 0.8, any other referrer defaults to a search user at 0.6. -/
def fallbackResult (referer : String) (now : Int) : DetectionResult :=
  if referer = "" then ⟨false, .direct, "fallback", 8/10, "", now⟩
  else ⟨false, .fromSearch, "fallback", 6/10, "", now⟩

/-- BotDetector.determineUserType of bot_detector.go: when the referrer
checker exists and is enabled its verdict maps to SearchUser or DirectUser
with method referrer (a checker error falls through); otherwise the
explicit fallback. -/
def BotDetector.determineUserType (bd : BotDetector) (r : Request) (now : Int) :
    DetectionResult × BotDetector :=
  let referer := r.Referer
  match bd.referrerChecker with
  | some rc =>
    if bd.enableReferrerCheck then
      match rc.CheckReferrer referer now with
      | (refResult, err, rc1) =>
        let bd1 := { bd with referrerChecker := some rc1 }
        match err with
        | some _ => (fallbackResult referer now, bd1)
        | none =>
          if refResult.IsFromSearch then
            (⟨false, .fromSearch, "referrer", refResult.Confidence,
              refResult.MatchedPattern, now⟩, bd1)
          else
            (⟨false, .direct, "referrer", refResult.Confidence, "", now⟩, bd1)
    else (fallbackResult referer now, bd)
  | none => (fallbackResult referer now, bd)

/-- Step 1 of `performDetection`: the user-agent check (absent checker or
checker error continues the cascade). -/
def uaStep (bd0 : BotDetector) (userAgent : String) (now : Int) :
    Option DetectionResult × BotDetector :=
  match bd0.userAgentMatcher with
  | none => (none, bd0)
  | some uam =>
    match uam.IsBot userAgent now with
    | (uaResult, err, uam1) =>
      let bd1 := { bd0 with userAgentMatcher := some uam1 }
      match err with
      | some _ => (none, bd1)
      | none =>
        if uaResult.IsBot then
          (some ⟨true, .bot, "user_agent", uaResult.Confidence,
            uaResult.MatchedPattern, now⟩, bd1)
        else (none, bd1)

/-- Step 2 of `performDetection`: the IP-range check. -/
def ipStep (bd1 : BotDetector) (clientIP : String) (now : Int) :
    Option DetectionResult × BotDetector :=
  match bd1.ipRangeChecker with
  | none => (none, bd1)
  | some irc =>
    match irc.IsBot clientIP now with
    | (ipResult, err, irc1) =>
      let bd2 := { bd1 with ipRangeChecker := some irc1 }
      match err with
      | some _ => (none, bd2)
      | none =>
        if ipResult.IsBot then
          (some ⟨true, .bot, "ip_range", ipResult.Confidence,
            ipResult.MatchedRange, now⟩, bd2)
        else (none, bd2)

/-- Step 3 of `performDetection`: the reverse-DNS check, only when present
and enabled. -/
def dnsStep (bd2 : BotDetector) (clientIP : String) (now : Int)
    (dnsOutcome : DNSOutcome) : Option DetectionResult × BotDetector :=
  match bd2.reverseDNSChecker with
  | none => (none, bd2)
  | some rdns =>
    if bd2.enableReverseDNS then
      match rdns.CheckDNS clientIP now dnsOutcome with
      | (dnsResult, err, rdns1) =>
        let bd3 := { bd2 with reverseDNSChecker := some rdns1 }
        match err with
        | some _ => (none, bd3)
        | none =>
          if dnsResult.IsBot then
            (some ⟨true, .bot, "reverse_dns", dnsResult.Confidence,
              dnsResult.Hostname, now⟩, bd3)
          else (none, bd3)
    else (none, bd2)

/-- BotDetector.performDetection of bot_detector.go: the strict cascade
UserAgent, IPRange, ReverseDNS (when enabled), then the referrer-based
classification; a checker error is logged and skipped, the first is-bot
signal returns immediately.  The source's three numbered blocks are the
three step functions above. -/
def BotDetector.performDetection (bd0 : BotDetector) (r : Request) (now : Int)
    (dnsOutcome : DNSOutcome) : DetectionResult × BotDetector :=
  match uaStep bd0 r.UserAgent now with
  | (some result, bd1) => (result, bd1)
  | (none, bd1) =>
    match ipStep bd1 r.RemoteAddr now with
    | (some result, bd2) => (result, bd2)
    | (none, bd2) =>
      match dnsStep bd2 r.RemoteAddr now dnsOutcome with
      | (some result, bd3) => (result, bd3)
      | (none, bd3) => bd3.determineUserType r now

/-! ## Concrete fixtures used by witnesses and counterexamples -/

/-- Enabled referrer checker with no domains and a parser that rejects
everything (the claims it serves never reach the parser). -/
def fixtureReferrerChecker : ReferrerChecker :=
  ⟨true, [], [], [], [], [], 3600000000000, 3000, fun _ => none⟩

/-- Detector with referrer checking enabled and every bot checker empty. -/
def fixtureDetectorReferrerOn : BotDetector :=
  ⟨some ⟨[], [], [], [], [], 3600000000000, 1000⟩,
   some (emptyIPRangeChecker 3600000000000),
   none, some fixtureReferrerChecker, false, true, 3600000000000⟩

/-- Compiled `.*\.googlebot\.com$` pattern: its matcher is suffix
matching on hostnames (no newlines). -/
def fixtureGooglebotRegex : GoRegex :=
  ⟨".*\\.googlebot\\.com$", fun s => strHasSuffix s ".googlebot.com"⟩

/-- Reverse-DNS checker whose resolver knows one Googlebot address with a
verifiable round trip. -/
def fixtureDNSChecker : ReverseDNSChecker :=
  ⟨true, 5000000000, [], 3600000000000, 2000,
   [(BotType.search, [fixtureGooglebotRegex])],
   fun ip => if ip == "66.249.66.1" then some ["crawl-66-249-66-1.googlebot.com."] else none,
   fun h => if h == "crawl-66-249-66-1.googlebot.com" then some ["66.249.66.1"] else none⟩

/-! ## Theorems -/

/-! ### The checker entry points never return an error -/

theorem uam_IsBot_err_none (uam : UserAgentMatcher) (ua : String) (now : Int) :
    (uam.IsBot ua now).2.1 = none := by
  unfold UserAgentMatcher.IsBot
  split
  · rfl
  · split <;> rfl

theorem irc_IsBot_err_none (irc : IPRangeChecker) (ip : String) (now : Int) :
    (irc.IsBot ip now).2.1 = none := by
  unfold IPRangeChecker.IsBot
  split
  · rfl
  · dsimp only
    split <;> rfl

theorem rc_CheckReferrer_err_none (rc : ReferrerChecker) (ref : String) (now : Int) :
    (rc.CheckReferrer ref now).2.1 = none := by
  unfold ReferrerChecker.CheckReferrer
  split
  · rfl
  · split
    · rfl
    · dsimp only
      split <;> rfl


theorem alookup_aset_self {V : Type} (m : List (String × V)) (k : String) (v : V) :
    alookup (aset m k v) k = some v := by
  simp [alookup, aset, List.find?]

/-- C4: a `SetWithTTL` of (key, value) at time t0 followed by a `Get` of the
same key at time t1 returns the stored value while the age `t1 - t0` has not
passed a positive TTL, or forever when `ttl ≤ 0`; once the age exceeds a
positive TTL the `Get` returns absent. -/
theorem c4_cache_set_get {V : Type} (c : Cache V) (key : String) (value : V)
    (ttl : Int) (t0 t1 : Int) :
    (ttl ≤ 0 ∨ t1 - t0 ≤ ttl →
      ((c.SetWithTTL key value ttl t0).Get key t1).1 = some value) ∧
    (0 < ttl → ttl < t1 - t0 →
      ((c.SetWithTTL key value ttl t0).Get key t1).1 = none) := by
  have hstore : alookup (c.SetWithTTL key value ttl t0).store key =
      some ⟨key, value, t0, t0, ttl, 0⟩ := by
    unfold Cache.SetWithTTL
    exact alookup_aset_self _ _ _
  constructor
  · intro h
    unfold Cache.Get
    rw [hstore]
    have : (c.SetWithTTL key value ttl t0).isExpired t1 ⟨key, value, t0, t0, ttl, 0⟩ = false := by
      unfold Cache.isExpired
      rcases h with h | h
      · simp [h]
      · by_cases hle : ttl ≤ 0
        · simp [hle]
        · simp only [hle, if_false, decide_eq_false_iff_not, not_lt]
          omega
    simp [this]
  · intro hpos hage
    unfold Cache.Get
    rw [hstore]
    have : (c.SetWithTTL key value ttl t0).isExpired t1 ⟨key, value, t0, t0, ttl, 0⟩ = true := by
      unfold Cache.isExpired
      have : ¬ (ttl ≤ 0) := by omega
      simp only [this, if_false, decide_eq_true_eq]
      omega
    simp [this]

/-- Witness for C4 at a concrete cache, key, value and times. -/
theorem c4_cache_set_get_witness :
    ((1 : Int) ≤ 0 ∨ (5 : Int) - 0 ≤ 1 → (((⟨[], 10, 100⟩ : Cache Nat).SetWithTTL "k" 7 1 0).Get "k" 5).1 = some 7) ∧
    ((0 : Int) < 1 → (1 : Int) < 5 - 0 → (((⟨[], 10, 100⟩ : Cache Nat).SetWithTTL "k" 7 1 0).Get "k" 5).1 = none) ∧
    (((⟨[], 10, 100⟩ : Cache Nat).SetWithTTL "k" 7 1 0).Get "k" 5).1 = none :=
  ⟨(c4_cache_set_get ⟨[], 10, 100⟩ "k" 7 1 0 5).1,
   (c4_cache_set_get ⟨[], 10, 100⟩ "k" 7 1 0 5).2,
   (c4_cache_set_get ⟨[], 10, 100⟩ "k" 7 1 0 5).2 (by decide) (by decide)⟩

theorem refill_inv (tb : TokenBucket) (now : Int) (h : BucketInv tb) :
    BucketInv (tb.refill now) := by
  obtain ⟨h1, h2, h3, h4⟩ := h
  unfold TokenBucket.refill
  by_cases he : now - tb.lastRefill ≥ nsPerSecond
  · simp only [he, if_true]
    have hsec : 0 ≤ (now - tb.lastRefill) / nsPerSecond := by
      unfold nsPerSecond at *
      omega
    have hadd : 0 ≤ (now - tb.lastRefill) / nsPerSecond * tb.refillRate :=
      mul_nonneg hsec h3
    refine ⟨?_, ?_, h3, h4⟩ <;> dsimp only <;> split <;> omega
  · simp only [he, if_false]
    exact ⟨h1, h2, h3, h4⟩

theorem allowRequest_inv (tb : TokenBucket) (now : Int) (h : BucketInv tb) :
    BucketInv (tb.allowRequest now).2 := by
  have hr := refill_inv tb now h
  obtain ⟨h1, h2, h3, h4⟩ := hr
  unfold TokenBucket.allowRequest
  by_cases ht : (tb.refill now).tokens > 0
  · simp only [ht, if_true]
    exact ⟨show (0:Int) ≤ (tb.refill now).tokens - 1 by omega,
           show (tb.refill now).tokens - 1 ≤ (tb.refill now).capacity by omega,
           h3, h4⟩
  · simp only [ht, if_false]
    exact ⟨h1, h2, h3, h4⟩

theorem allowTrace_inv (tb : TokenBucket) (times : List Int) (h : BucketInv tb) :
    ∀ p ∈ allowTrace tb times, BucketInv p.2 := by
  induction times generalizing tb with
  | nil => intro p hp; simp [allowTrace] at hp
  | cons t ts ih =>
    intro p hp
    simp only [allowTrace, List.mem_cons] at hp
    rcases hp with rfl | hp
    · exact allowRequest_inv tb t h
    · exact ih (tb.allowRequest t).2 (allowRequest_inv tb t h) p hp

/-- C5: starting from a bucket created by `checkTokenBucket` with a
non-negative configured rate, the token count stays within `[0, capacity]`
after every `allowRequest` of any call sequence, and any single call returns
true exactly when the post-refill token count is positive. -/
theorem c5_token_bucket (maxRate t0 : Int) (times : List Int) (hcap : 0 ≤ maxRate) :
    (∀ p ∈ allowTrace (newTokenBucket maxRate t0) times,
        0 ≤ p.2.tokens ∧ p.2.tokens ≤ p.2.capacity) ∧
    (∀ (tb : TokenBucket) (now : Int),
        (tb.allowRequest now).1 = true ↔ 0 < (tb.refill now).tokens) := by
  constructor
  · intro p hp
    have := allowTrace_inv _ times ⟨hcap, le_refl _, hcap, hcap⟩ p hp
    exact ⟨this.1, this.2.1⟩
  · intro tb now
    unfold TokenBucket.allowRequest
    by_cases ht : (tb.refill now).tokens > 0
    · simp [ht]
    · simp only [ht, if_false]
      constructor
      · intro hfalse; simp at hfalse
      · intro hpos; exact hpos.elim

/-! ### Lengths of parsed addresses -/

theorem parseIPv4_length {s : String} {bs : List Nat} (h : parseIPv4 s = some bs) :
    bs.length = 4 := by
  unfold parseIPv4 at h
  split at h
  · split at h
    · simp only [Option.some.injEq] at h
      subst h
      rfl
    · simp at h
  · simp at h

theorem parseIPv6_length {s : String} {bs : List Nat} (h : parseIPv6 s = some bs) :
    bs.length = 16 := by
  unfold parseIPv6 at h
  split at h
  · simp at h
  · split at h
    · split at h
      · split at h
        · next hg =>
            simp only [Option.some.injEq] at h
            subst h
            exact hg
        · simp at h
      · simp at h
    · split at h <;> split at h <;>
        (dsimp only at h
         split at h
         · split at h
           · next hle =>
               simp only [Option.some.injEq] at h
               subst h
               simp only [List.length_append, List.length_replicate]
               omega
           · simp at h
         · simp at h)
    · simp at h

theorem parseIP_length {s : String} {ip : List Nat} (h : parseIP s = some ip) :
    ip.length = 16 := by
  unfold parseIP at h
  split at h
  · split at h
    · cases hbs : parseIPv4 s with
      | none => rw [hbs] at h; simp at h
      | some bs =>
        rw [hbs] at h
        simp only [Option.map_some', Option.some.injEq] at h
        subst h
        have := parseIPv4_length hbs
        simp [v4InV6Prefix, this]
    · exact parseIPv6_length h
  · simp at h

theorem ipTo4_length {ip x : List Nat} (h : ipTo4 ip = some x) : x.length = 4 := by
  unfold ipTo4 at h
  split at h
  · next h4 =>
      simp only [Option.some.injEq] at h
      subst h
      exact h4
  · split at h
    · next h16 =>
        simp only [Option.some.injEq] at h
        subst h
        simp [List.length_drop, h16.1]
    · simp at h

theorem networkNumberAndMask_shape {n : IPNet} {nn m : List Nat}
    (h : networkNumberAndMask n = some (nn, m)) :
    ((∃ ip4, ipTo4 n.IP = some ip4) ∧ nn.length = 4) ∨
    (ipTo4 n.IP = none ∧ nn.length = 16) := by
  unfold networkNumberAndMask at h
  split at h
  · next ip4 h4 =>
      left
      have hlen := ipTo4_length h4
      split at h
      · simp only [Option.some.injEq, Prod.mk.injEq] at h
        exact ⟨⟨ip4, h4⟩, by rw [← h.1]; exact hlen⟩
      · split at h
        · simp only [Option.some.injEq, Prod.mk.injEq] at h
          exact ⟨⟨ip4, h4⟩, by rw [← h.1]; exact hlen⟩
        · simp at h
  · next h4 =>
      right
      split at h
      · simp at h
      · next hne =>
          split at h
          · simp only [Option.some.injEq, Prod.mk.injEq] at h
            refine ⟨h4, ?_⟩
            rw [← h.1]
            omega
          · simp at h

/-- A network can only contain an address of its own family. -/
theorem netContains_family {n : IPNet} {ip : List Nat} (hlen : ip.length = 16)
    (hc : netContains n ip = true) : (ipTo4 n.IP).isSome = (ipTo4 ip).isSome := by
  unfold netContains at hc
  split at hc
  · simp at hc
  · next nn m hm =>
      have hshape := networkNumberAndMask_shape hm
      dsimp only at hc
      cases hip : ipTo4 ip with
      | some x =>
        rw [hip] at hc
        dsimp only at hc
        have hx := ipTo4_length hip
        rcases hshape with ⟨⟨ip4, h4⟩, hnn⟩ | ⟨h4, hnn⟩
        · rw [h4]
          rfl
        · exfalso
          split at hc
          · next hg => omega
          · simp at hc
      | none =>
        rw [hip] at hc
        dsimp only at hc
        rcases hshape with ⟨⟨ip4, h4⟩, hnn⟩ | ⟨h4, hnn⟩
        · exfalso
          split at hc
          · next hg => omega
          · simp at hc
        · rw [h4]

/-! ### Sorted-scan lemma: the first containing network of a list sorted by
descending prefix length is the one of maximal prefix length -/

theorem find_max_of_sorted (P : IPNet → Bool) (l : List IPNet)
    (hs : List.Sorted netGE l) (n1 : IPNet) (hmem : n1 ∈ l) (hP : P n1 = true)
    (hmax : ∀ n ∈ l, P n = true → netOnes n ≤ netOnes n1 ∧ (netOnes n = netOnes n1 → n = n1)) :
    l.find? P = some n1 := by
  induction l with
  | nil => cases hmem
  | cons x xs ih =>
    cases hx : P x with
    | true =>
      rw [List.find?_cons_of_pos _ hx]
      rcases List.mem_cons.mp hmem with rfl | hmem2
      · rfl
      · have hge : netGE x n1 := (List.sorted_cons.mp hs).1 n1 hmem2
        have hle := (hmax x (List.mem_cons_self x xs) hx).1
        have heq : netOnes x = netOnes n1 := le_antisymm hle hge
        rw [(hmax x (List.mem_cons_self x xs) hx).2 heq]
    | false =>
      rw [List.find?_cons_of_neg _ (by simp [hx])]
      rcases List.mem_cons.mp hmem with rfl | hmem2
      · rw [hP] at hx; cases hx
      · exact ih (List.sorted_cons.mp hs).2 hmem2
          (fun n hn hPn => hmax n (List.mem_cons_of_mem x hn) hPn)

/-! ### State shape produced by initializeRanges -/

theorem addRangeEntry_cache (irc : IPRangeChecker) (r : String) :
    (addRangeEntry irc r).cache = irc.cache := by
  unfold addRangeEntry
  split
  · rfl
  · split <;> (try split) <;> (try split) <;> rfl

theorem foldl_addRange_cache (ranges : List String) (base : IPRangeChecker) :
    (ranges.foldl addRangeEntry base).cache = base.cache := by
  induction ranges generalizing base with
  | nil => rfl
  | cons r rs ih => rw [List.foldl_cons, ih, addRangeEntry_cache]

theorem addRangeEntry_singles (irc : IPRangeChecker) (r : String)
    (h : r = "" ∨ strContains r "/" = true) :
    (addRangeEntry irc r).singleIPv4 = irc.singleIPv4 ∧
    (addRangeEntry irc r).singleIPv6 = irc.singleIPv6 := by
  unfold addRangeEntry
  split
  · exact ⟨rfl, rfl⟩
  · next hne =>
      split
      · next hns =>
          rcases h with rfl | hcon
          · exact absurd rfl hne
          · rw [hcon] at hns
            simp at hns
      · split
        · exact ⟨rfl, rfl⟩
        · split <;> exact ⟨rfl, rfl⟩

theorem foldl_addRange_singles (ranges : List String) (base : IPRangeChecker)
    (h : ∀ r ∈ ranges, r = "" ∨ strContains r "/" = true) :
    (ranges.foldl addRangeEntry base).singleIPv4 = base.singleIPv4 ∧
    (ranges.foldl addRangeEntry base).singleIPv6 = base.singleIPv6 := by
  induction ranges generalizing base with
  | nil => exact ⟨rfl, rfl⟩
  | cons r rs ih =>
    have hr := addRangeEntry_singles base r (h r (List.mem_cons_self r rs))
    have := ih (addRangeEntry base r) (fun x hx => h x (List.mem_cons_of_mem r hx))
    rw [List.foldl_cons]
    exact ⟨this.1.trans hr.1, this.2.trans hr.2⟩

theorem addRangeEntry_net_mono (irc : IPRangeChecker) (r : String) (n : IPNet) :
    (n ∈ irc.ipv4Networks → n ∈ (addRangeEntry irc r).ipv4Networks) ∧
    (n ∈ irc.ipv6Networks → n ∈ (addRangeEntry irc r).ipv6Networks) := by
  unfold addRangeEntry
  split
  · exact ⟨id, id⟩
  · split
    · split
      · exact ⟨id, id⟩
      · split <;> exact ⟨id, id⟩
    · split
      · exact ⟨id, id⟩
      · split <;>
          exact ⟨fun h => by simp only [List.mem_append] at *; tauto,
                 fun h => by simp only [List.mem_append] at *; tauto⟩

theorem addRangeEntry_adds (irc : IPRangeChecker) (r : String) (n : IPNet)
    (hcp : parseCIDR r = some n) (hcontains : strContains r "/" = true) :
    (if (ipTo4 n.IP).isSome then n ∈ (addRangeEntry irc r).ipv4Networks
     else n ∈ (addRangeEntry irc r).ipv6Networks) := by
  have hne : r ≠ "" := by
    intro hr
    rw [hr, show parseCIDR "" = none by decide] at hcp
    simp at hcp
  unfold addRangeEntry
  simp only [hne, if_false, hcontains, Bool.not_true, Bool.false_eq_true, if_false, hcp]
  cases h4 : (ipTo4 n.IP).isSome <;> simp [h4]

theorem foldl_addRange_net_mono (xs : List String) (b : IPRangeChecker) (n : IPNet)
    (hb : if (ipTo4 n.IP).isSome then n ∈ b.ipv4Networks else n ∈ b.ipv6Networks) :
    (if (ipTo4 n.IP).isSome then n ∈ (xs.foldl addRangeEntry b).ipv4Networks
     else n ∈ (xs.foldl addRangeEntry b).ipv6Networks) := by
  induction xs generalizing b with
  | nil => exact hb
  | cons y ys ihy =>
    rw [List.foldl_cons]
    apply ihy
    cases h4 : (ipTo4 n.IP).isSome <;> simp only [h4] at hb ⊢
    · simp only [Bool.false_eq_true, if_false] at hb ⊢
      exact (addRangeEntry_net_mono b y n).2 hb
    · simp only [if_true] at hb ⊢
      exact (addRangeEntry_net_mono b y n).1 hb

theorem foldl_addRange_mem (ranges : List String) (base : IPRangeChecker)
    (r : String) (n : IPNet) (hr : r ∈ ranges) (hcp : parseCIDR r = some n)
    (hcontains : strContains r "/" = true) :
    (if (ipTo4 n.IP).isSome then n ∈ (ranges.foldl addRangeEntry base).ipv4Networks
     else n ∈ (ranges.foldl addRangeEntry base).ipv6Networks) := by
  induction ranges generalizing base with
  | nil => cases hr
  | cons x xs ih =>
    rw [List.foldl_cons]
    rcases List.mem_cons.mp hr with rfl | hmem
    · exact foldl_addRange_net_mono xs (addRangeEntry base r) n
        (addRangeEntry_adds base r n hcp hcontains)
    · exact ih (addRangeEntry base x) hmem

/-- The scan of `performCheck` on a checker whose single-IP set misses
returns the containing network of maximal prefix length. -/
theorem performCheck_narrowest (irc : IPRangeChecker) (ipStr : String)
    (ip : List Nat) (now : Int) (n1 : IPNet)
    (hip : parseIP ipStr = some ip)
    (hsingle : ((if (ipTo4 ip).isSome then irc.singleIPv4 else irc.singleIPv6).contains ipStr) = false)
    (hsorted : List.Sorted netGE (if (ipTo4 ip).isSome then irc.ipv4Networks else irc.ipv6Networks))
    (hmem : n1 ∈ (if (ipTo4 ip).isSome then irc.ipv4Networks else irc.ipv6Networks))
    (hc : netContains n1 ip = true)
    (hmax : ∀ n ∈ (if (ipTo4 ip).isSome then irc.ipv4Networks else irc.ipv6Networks),
      netContains n ip = true → netOnes n ≤ netOnes n1 ∧ (netOnes n = netOnes n1 → n = n1)) :
    irc.performCheck ipStr now =
      ⟨true, netString n1, getOrganization (alookup irc.rangeMetadata (netString n1)),
       getBotType (alookup irc.rangeMetadata (netString n1)), 9/10,
       if (ipTo4 ip).isSome then 4 else 6, now⟩ := by
  have hfind := find_max_of_sorted (fun network => netContains network ip) _
    hsorted n1 hmem hc hmax
  unfold IPRangeChecker.performCheck
  rw [hip]
  cases h4 : (ipTo4 ip).isSome with
  | false =>
    simp only [h4, Bool.false_eq_true, if_false] at hsingle hfind ⊢
    simp only [hsingle, Bool.false_eq_true, if_false, hfind]
  | true =>
    simp only [h4, if_true] at hsingle hfind ⊢
    simp only [hsingle, Bool.false_eq_true, if_false, hfind]

/-- C1: in a configuration whose IP list consists of CIDR ranges, two of
which are overlapping ranges r1 (the narrower, with the longer prefix) and
r2 parsing to networks n1 and n2, an address contained in both is reported
as a bot with the narrower range as MatchedRange (confidence 0.9),
because the network lists are sorted by descending prefix length at
initialization and the first containing network is returned.  The
hypothesis `hmax` spells out that n1 is the most specific containing range
of the configuration, which for exactly two overlapping ranges is the
narrower of the two. -/
theorem c1_ip_range_overlap
    (ranges : List String) (md : List (String × IPRangeMetadata)) (ttl : Int)
    (irc : IPRangeChecker) (ipStr : String) (ip : List Nat)
    (r1 r2 : String) (n1 n2 : IPNet) (now : Int)
    (hirc : irc = IPRangeChecker.initializeRanges
      ({ emptyIPRangeChecker ttl with rangeMetadata := md }) ranges)
    (hr1 : r1 ∈ ranges) (_hr2 : r2 ∈ ranges)
    (hp1 : parseCIDR r1 = some n1) (_hp2 : parseCIDR r2 = some n2)
    (hcidr : ∀ r ∈ ranges, r = "" ∨ strContains r "/" = true)
    (hip : parseIP (extractIP ipStr) = some ip)
    (hc1 : netContains n1 ip = true) (_hc2 : netContains n2 ip = true)
    (_hnarrow : netOnes n2 < netOnes n1)
    (hmax : ∀ n ∈ (if (ipTo4 ip).isSome then irc.ipv4Networks else irc.ipv6Networks),
      netContains n ip = true → netOnes n ≤ netOnes n1 ∧ (netOnes n = netOnes n1 → n = n1)) :
    ((irc.IsBot ipStr now).1).IsBot = true ∧
    ((irc.IsBot ipStr now).1).MatchedRange = netString n1 ∧
    ((irc.IsBot ipStr now).1).Confidence = 9/10 := by
  have hne : ipStr ≠ "" := by
    intro h0
    rw [h0, show extractIP "" = "" from rfl,
      show parseIP "" = none from rfl] at hip
    cases hip
  have hcontains1 : strContains r1 "/" = true := by
    rcases hcidr r1 hr1 with rfl | hcon
    · rw [show parseCIDR "" = none by decide] at hp1
      cases hp1
    · exact hcon
  have hlen : ip.length = 16 := parseIP_length hip
  have hfam : (ipTo4 n1.IP).isSome = (ipTo4 ip).isSome := netContains_family hlen hc1
  subst hirc
  set base := ({ emptyIPRangeChecker ttl with rangeMetadata := md } : IPRangeChecker)
  have hbase : ({ base with ipv4Networks := [], ipv6Networks := [], singleIPv4 := [], singleIPv6 := [] } : IPRangeChecker) = base := rfl
  have hint : IPRangeChecker.initializeRanges base ranges =
      (ranges.foldl addRangeEntry base).sortNetworks := by
    unfold IPRangeChecker.initializeRanges
    rw [hbase]
  rw [hint] at hmax ⊢
  set F := ranges.foldl addRangeEntry base with hF
  have hcache : F.sortNetworks.cache = [] := by
    show F.cache = []
    rw [hF, foldl_addRange_cache]
    rfl
  have hsingles := foldl_addRange_singles ranges base hcidr
  have hsingle : ((if (ipTo4 ip).isSome then F.sortNetworks.singleIPv4
      else F.sortNetworks.singleIPv6).contains (extractIP ipStr)) = false := by
    have h1 : F.sortNetworks.singleIPv4 = [] := hsingles.1
    have h2 : F.sortNetworks.singleIPv6 = [] := hsingles.2
    cases (ipTo4 ip).isSome <;> simp [h1, h2]
  have hsorted : List.Sorted netGE
      (if (ipTo4 ip).isSome then F.sortNetworks.ipv4Networks
       else F.sortNetworks.ipv6Networks) := by
    cases (ipTo4 ip).isSome <;>
      exact List.sorted_insertionSort netGE _
  have hmem : n1 ∈ (if (ipTo4 ip).isSome then F.sortNetworks.ipv4Networks
      else F.sortNetworks.ipv6Networks) := by
    have hm := foldl_addRange_mem ranges base r1 n1 hr1 hp1 hcontains1
    rw [hfam] at hm
    cases h4 : (ipTo4 ip).isSome <;> rw [h4] at hm <;>
      simp only [Bool.false_eq_true, if_false, if_true] at hm ⊢
    · exact ((List.perm_insertionSort netGE F.ipv6Networks).mem_iff).mpr hm
    · exact ((List.perm_insertionSort netGE F.ipv4Networks).mem_iff).mpr hm
  have hperf := performCheck_narrowest F.sortNetworks (extractIP ipStr) ip now n1
    hip hsingle hsorted hmem hc1 hmax
  have hget : F.sortNetworks.getCachedResult (extractIP ipStr) now =
      (none, F.sortNetworks) := by
    unfold IPRangeChecker.getCachedResult
    rw [hcache]
    rfl
  unfold IPRangeChecker.IsBot
  rw [if_neg hne]
  dsimp only
  rw [hget]
  dsimp only
  rw [hperf]
  exact ⟨rfl, rfl, rfl⟩

/-- Witness for C1: overlapping ranges 10.0.0.0/8 and 10.1.0.0/16 with the
address 10.1.2.3 in both report the /16. -/
theorem c1_ip_range_overlap_witness :
    ((((IPRangeChecker.initializeRanges { emptyIPRangeChecker 3600000000000 with rangeMetadata := [] } ["10.0.0.0/8", "10.1.0.0/16"]).IsBot "10.1.2.3" 0).1).IsBot = true) ∧
    ((((IPRangeChecker.initializeRanges { emptyIPRangeChecker 3600000000000 with rangeMetadata := [] } ["10.0.0.0/8", "10.1.0.0/16"]).IsBot "10.1.2.3" 0).1).MatchedRange = "10.1.0.0/16") := by
  have h := c1_ip_range_overlap ["10.0.0.0/8", "10.1.0.0/16"] [] 3600000000000
    (IPRangeChecker.initializeRanges { emptyIPRangeChecker 3600000000000 with rangeMetadata := [] } ["10.0.0.0/8", "10.1.0.0/16"])
    "10.1.2.3" (v4InV6Prefix ++ [10, 1, 2, 3]) "10.1.0.0/16" "10.0.0.0/8"
    ⟨[10, 1, 0, 0], [255, 255, 0, 0]⟩ ⟨[10, 0, 0, 0], [255, 0, 0, 0]⟩ 0
    rfl (by decide) (by decide) (by decide) (by decide) (by decide) (by decide)
    (by decide) (by decide) (by decide) (by decide)
  exact ⟨h.1, h.2.1.trans (by decide)⟩

/-- Witness for C5 at a concrete rate and call sequence. -/
theorem c5_token_bucket_witness :
    (0 : Int) ≤ 2 ∧
    (0 ≤ ((newTokenBucket 2 0).allowRequest 0).2.tokens ∧
      ((newTokenBucket 2 0).allowRequest 0).2.tokens ≤
        ((newTokenBucket 2 0).allowRequest 0).2.capacity) :=
  ⟨by decide,
   (c5_token_bucket 2 0 [0] (by decide)).1 ((newTokenBucket 2 0).allowRequest 0)
     (by decide)⟩

/-- C9: the three synchronous checker entry points return a nil error on
every input and every state, absorbing unparseable IPs and malformed URLs
into negative results, so the error branches of `performDetection` are
unreachable. -/
theorem c9_checkers_never_err :
    (∀ (uam : UserAgentMatcher) (ua : String) (now : Int), (uam.IsBot ua now).2.1 = none) ∧
    (∀ (irc : IPRangeChecker) (ip : String) (now : Int), (irc.IsBot ip now).2.1 = none) ∧
    (∀ (rc : ReferrerChecker) (ref : String) (now : Int), (rc.CheckReferrer ref now).2.1 = none) :=
  ⟨uam_IsBot_err_none, irc_IsBot_err_none, rc_CheckReferrer_err_none⟩

/-- C7: for a non-empty user agent, `performCheck` tries the exact set,
then the substring list, then the regexes; the first matching tier fixes
the confidence: 1.0 exact, 0.9 substring, 0.8 regex, and 0.0 with a
negative verdict when nothing matches. -/
theorem c7_user_agent_tiers (uam : UserAgentMatcher) (userAgent : String) (now : Int)
    (_hne : userAgent ≠ "") :
    ((uam.exactMatches.contains (goToLower userAgent)) = true →
      (uam.performCheck userAgent now).IsBot = true ∧
      (uam.performCheck userAgent now).Confidence = 1 ∧
      (uam.performCheck userAgent now).MatchedPattern = goToLower userAgent) ∧
    (∀ p, (uam.exactMatches.contains (goToLower userAgent)) = false →
      uam.containsMatches.find? (fun pattern => strContains (goToLower userAgent) pattern) = some p →
      (uam.performCheck userAgent now).IsBot = true ∧
      (uam.performCheck userAgent now).Confidence = 9/10 ∧
      (uam.performCheck userAgent now).MatchedPattern = p) ∧
    (∀ re, (uam.exactMatches.contains (goToLower userAgent)) = false →
      uam.containsMatches.find? (fun pattern => strContains (goToLower userAgent) pattern) = none →
      uam.compiledRegexps.find? (fun regex => regex.matchString userAgent) = some re →
      (uam.performCheck userAgent now).IsBot = true ∧
      (uam.performCheck userAgent now).Confidence = 8/10 ∧
      (uam.performCheck userAgent now).MatchedPattern = re.pattern) ∧
    ((uam.exactMatches.contains (goToLower userAgent)) = false →
      uam.containsMatches.find? (fun pattern => strContains (goToLower userAgent) pattern) = none →
      uam.compiledRegexps.find? (fun regex => regex.matchString userAgent) = none →
      (uam.performCheck userAgent now).IsBot = false ∧
      (uam.performCheck userAgent now).Confidence = 0) := by
  refine ⟨?_, ?_, ?_, ?_⟩
  · intro hex
    have hex2 : goToLower userAgent ∈ uam.exactMatches := by simpa using hex
    simp [UserAgentMatcher.performCheck, hex2]
  · intro p hex hfind
    have hex2 : ¬ goToLower userAgent ∈ uam.exactMatches := by simpa using hex
    simp [UserAgentMatcher.performCheck, hex2, hfind]
  · intro re hex hfind hre
    have hex2 : ¬ goToLower userAgent ∈ uam.exactMatches := by simpa using hex
    simp [UserAgentMatcher.performCheck, hex2, hfind, hre]
  · intro hex hfind hre
    have hex2 : ¬ goToLower userAgent ∈ uam.exactMatches := by simpa using hex
    simp [UserAgentMatcher.performCheck, hex2, hfind, hre]

/-- Witness for C7: a matcher with exact pattern googlebot and substring
pattern bot classifies concrete user agents at the right tiers. -/
theorem c7_user_agent_tiers_witness :
    ((⟨[], [], ["googlebot"], ["bot"], [], 0, 1000⟩ : UserAgentMatcher).performCheck "Googlebot" 0).Confidence = 1 ∧
    ((⟨[], [], ["googlebot"], ["bot"], [], 0, 1000⟩ : UserAgentMatcher).performCheck "Mozilla/5.0 SuperBot/1.1" 0).Confidence = 9/10 ∧
    ((⟨[], [], ["googlebot"], ["bot"], [], 0, 1000⟩ : UserAgentMatcher).performCheck "Mozilla/5.0 Chrome" 0).IsBot = false := by
  refine ⟨?_, ?_, ?_⟩
  · exact ((c7_user_agent_tiers ⟨[], [], ["googlebot"], ["bot"], [], 0, 1000⟩ "Googlebot" 0 (by decide)).1 (by decide)).2.1
  · exact ((c7_user_agent_tiers ⟨[], [], ["googlebot"], ["bot"], [], 0, 1000⟩ "Mozilla/5.0 SuperBot/1.1" 0 (by decide)).2.1 "bot" (by decide) (by decide)).2.1
  · exact ((c7_user_agent_tiers ⟨[], [], ["googlebot"], ["bot"], [], 0, 1000⟩ "Mozilla/5.0 Chrome" 0 (by decide)).2.2.2 (by decide) (by decide) rfl).1

/-- C10: a checker constructed with referrer checking disabled reports
IsFromSearch for every referrer, the empty string and malformed URLs
included. -/
theorem c10_disabled_checker_permissive (allowedReferrers defaults : List String)
    (cacheTTL : Int) (compile : String → Option GoRegex)
    (urlParse : String → Option GoURL) (referrer : String) (now : Int) :
    (((NewReferrerChecker false allowedReferrers defaults cacheTTL compile urlParse).CheckReferrer
        referrer now).1).IsFromSearch = true := by
  unfold NewReferrerChecker ReferrerChecker.CheckReferrer
  simp

/-- C8: with the referrer checker disabled (or absent) and no checker
having signalled bot, `determineUserType` uses the explicit fallback: an
empty referrer is DirectUser at 0.8 and a non-empty one SearchUser at 0.6,
both with method fallback. -/
theorem c8_fallback_classification (bd : BotDetector) (r : Request) (now : Int)
    (hdis : bd.enableReferrerCheck = false ∨ bd.referrerChecker = none) :
    (r.Referer = "" →
      (bd.determineUserType r now).1 = ⟨false, .direct, "fallback", 8/10, "", now⟩) ∧
    (r.Referer ≠ "" →
      (bd.determineUserType r now).1 = ⟨false, .fromSearch, "fallback", 6/10, "", now⟩) := by
  have hfb : (bd.determineUserType r now).1 = fallbackResult r.Referer now := by
    unfold BotDetector.determineUserType
    cases hrc : bd.referrerChecker with
    | none => rfl
    | some rc =>
      rcases hdis with hdis | hdis
      · simp [hdis]
      · rw [hrc] at hdis
        cases hdis
  constructor
  · intro h
    rw [hfb]
    simp [fallbackResult, h]
  · intro h
    rw [hfb]
    simp [fallbackResult, h]

/-- Witness for C8 at a concrete detector with the referrer checker
absent. -/
theorem c8_fallback_classification_witness :
    ((⟨none, none, none, none, false, false, 0⟩ : BotDetector).determineUserType
      ⟨"203.0.113.9", "", ""⟩ 0).1 = ⟨false, .direct, "fallback", 8/10, "", 0⟩ ∧
    ((⟨none, none, none, none, false, false, 0⟩ : BotDetector).determineUserType
      ⟨"203.0.113.9", "", "https://example.com/x"⟩ 0).1 =
        ⟨false, .fromSearch, "fallback", 6/10, "", 0⟩ :=
  ⟨(c8_fallback_classification ⟨none, none, none, none, false, false, 0⟩
      ⟨"203.0.113.9", "", ""⟩ 0 (Or.inl rfl)).1 rfl,
   (c8_fallback_classification ⟨none, none, none, none, false, false, 0⟩
      ⟨"203.0.113.9", "", "https://example.com/x"⟩ 0 (Or.inl rfl)).2 (by decide)⟩

theorem rdns_CheckDNS_err_none (rdns : ReverseDNSChecker) (ip : String) (now : Int)
    (outcome : DNSOutcome) : (rdns.CheckDNS ip now outcome).2.1 = none := by
  unfold ReverseDNSChecker.CheckDNS
  split
  · rfl
  · split
    · rfl
    · dsimp only
      split
      · rfl
      · split <;> rfl

/-! ### Step lemmas for the cascade -/

theorem uaStep_fields (bd : BotDetector) (ua : String) (now : Int) :
    (uaStep bd ua now).2.ipRangeChecker = bd.ipRangeChecker ∧
    (uaStep bd ua now).2.reverseDNSChecker = bd.reverseDNSChecker ∧
    (uaStep bd ua now).2.referrerChecker = bd.referrerChecker ∧
    (uaStep bd ua now).2.enableReverseDNS = bd.enableReverseDNS ∧
    (uaStep bd ua now).2.enableReferrerCheck = bd.enableReferrerCheck := by
  unfold uaStep
  split
  · exact ⟨rfl, rfl, rfl, rfl, rfl⟩
  · next uam _ =>
      rcases hx : uam.IsBot ua now with ⟨a, b, c⟩
      dsimp only
      cases b with
      | some e => exact ⟨rfl, rfl, rfl, rfl, rfl⟩
      | none =>
        dsimp only
        split <;> exact ⟨rfl, rfl, rfl, rfl, rfl⟩

theorem ipStep_fields (bd : BotDetector) (addr : String) (now : Int) :
    (ipStep bd addr now).2.reverseDNSChecker = bd.reverseDNSChecker ∧
    (ipStep bd addr now).2.referrerChecker = bd.referrerChecker ∧
    (ipStep bd addr now).2.enableReverseDNS = bd.enableReverseDNS ∧
    (ipStep bd addr now).2.enableReferrerCheck = bd.enableReferrerCheck := by
  unfold ipStep
  split
  · exact ⟨rfl, rfl, rfl, rfl⟩
  · next irc _ =>
      rcases hx : irc.IsBot addr now with ⟨a, b, c⟩
      dsimp only
      cases b with
      | some e => exact ⟨rfl, rfl, rfl, rfl⟩
      | none =>
        dsimp only
        split <;> exact ⟨rfl, rfl, rfl, rfl⟩

theorem dnsStep_fields (bd : BotDetector) (addr : String) (now : Int)
    (o : DNSOutcome) :
    (dnsStep bd addr now o).2.referrerChecker = bd.referrerChecker ∧
    (dnsStep bd addr now o).2.enableReferrerCheck = bd.enableReferrerCheck := by
  unfold dnsStep
  split
  · exact ⟨rfl, rfl⟩
  · next rdns _ =>
      split
      · rcases hx : rdns.CheckDNS addr now o with ⟨a, b, c⟩
        dsimp only
        cases b with
        | some e => exact ⟨rfl, rfl⟩
        | none =>
          dsimp only
          split <;> exact ⟨rfl, rfl⟩
      · exact ⟨rfl, rfl⟩

theorem uaStep_empty (bd : BotDetector) (ua : String) (now : Int) (h : ua = "") :
    (uaStep bd ua now).1 = none := by
  subst h
  unfold uaStep
  split
  · rfl
  · next uam _ =>
      have h1 : uam.IsBot "" now = (⟨false, "", .unknown, 0, now⟩, none, uam) := rfl
      rw [h1]
      rfl

theorem ipStep_none (bd : BotDetector) (addr : String) (now : Int)
    (h : ∀ irc, bd.ipRangeChecker = some irc → ((irc.IsBot addr now).1).IsBot = false) :
    (ipStep bd addr now).1 = none := by
  unfold ipStep
  split
  · rfl
  · next irc hirc =>
      rcases hx : irc.IsBot addr now with ⟨a, b, c⟩
      have hb := irc_IsBot_err_none irc addr now
      rw [hx] at hb
      dsimp only at hb
      subst hb
      have ha := h irc hirc
      rw [hx] at ha
      dsimp only at ha
      dsimp only
      simp only [ha, Bool.false_eq_true, if_false]

theorem dnsStep_none (bd : BotDetector) (addr : String) (now : Int) (o : DNSOutcome)
    (h : ∀ rdns, bd.reverseDNSChecker = some rdns →
      ((rdns.CheckDNS addr now o).1).IsBot = false) :
    (dnsStep bd addr now o).1 = none := by
  unfold dnsStep
  split
  · rfl
  · next rdns hrdns =>
      split
      · rcases hx : rdns.CheckDNS addr now o with ⟨a, b, c⟩
        have hb := rdns_CheckDNS_err_none rdns addr now o
        rw [hx] at hb
        dsimp only at hb
        subst hb
        have ha := h rdns hrdns
        rw [hx] at ha
        dsimp only at ha
        dsimp only
        simp only [ha, Bool.false_eq_true, if_false]
      · rfl

/-- C2 (amended): a request with an empty user agent, a client address the
IP checker does not flag, a reverse-DNS check that does not flag it, and
an empty referrer is classified DirectUser and not a bot; the detection
method is referrer when a referrer checker is present and enabled (the
empty referrer is classified by the checker itself, not the fallback), and
fallback otherwise. -/
theorem c2_empty_request_direct (bd : BotDetector) (r : Request) (now : Int)
    (dnsOutcome : DNSOutcome)
    (hua : r.UserAgent = "")
    (hip : ∀ irc, bd.ipRangeChecker = some irc →
      ((irc.IsBot r.RemoteAddr now).1).IsBot = false)
    (hdns : ∀ rdns, bd.reverseDNSChecker = some rdns →
      ((rdns.CheckDNS r.RemoteAddr now dnsOutcome).1).IsBot = false)
    (href : r.Referer = "")
    (hrc : ∀ rc, bd.referrerChecker = some rc → rc.enabled = bd.enableReferrerCheck) :
    ((bd.performDetection r now dnsOutcome).1).UserType = .direct ∧
    ((bd.performDetection r now dnsOutcome).1).IsBot = false ∧
    ((bd.performDetection r now dnsOutcome).1).DetectionMethod =
      (match bd.referrerChecker, bd.enableReferrerCheck with
       | some _, true => "referrer"
       | _, _ => "fallback") := by
  have hdu : ∀ (bd3 : BotDetector), bd3.referrerChecker = bd.referrerChecker →
      bd3.enableReferrerCheck = bd.enableReferrerCheck →
      ((bd3.determineUserType r now).1).UserType = .direct ∧
      ((bd3.determineUserType r now).1).IsBot = false ∧
      ((bd3.determineUserType r now).1).DetectionMethod =
        (match bd.referrerChecker, bd.enableReferrerCheck with
         | some _, true => "referrer"
         | _, _ => "fallback") := by
    intro bd3 h1 h2
    unfold BotDetector.determineUserType
    cases hrc3 : bd3.referrerChecker with
    | none =>
      rw [← h1, hrc3]
      simp [fallbackResult, href]
    | some rc =>
      rw [← h1, hrc3]
      cases hen : bd3.enableReferrerCheck with
      | false =>
        rw [← h2, hen]
        simp [fallbackResult, href]
      | true =>
        rw [← h2, hen]
        have hrcen : rc.enabled = true := by
          rw [hrc rc (h1 ▸ hrc3), ← h2, hen]
        have hchk : rc.CheckReferrer r.Referer now =
            (⟨false, "", "", "", "", 1, .empty, [], now⟩, none, rc) := by
          rw [href]
          unfold ReferrerChecker.CheckReferrer
          rw [hrcen]
          rfl
        dsimp only
        rw [hchk]
        dsimp only
        exact ⟨rfl, rfl, rfl⟩
  unfold BotDetector.performDetection
  rcases h1 : uaStep bd r.UserAgent now with ⟨o1, bd1⟩
  have ho1 := uaStep_empty bd r.UserAgent now hua
  rw [h1] at ho1
  dsimp only at ho1
  subst ho1
  have hf1 := uaStep_fields bd r.UserAgent now
  rw [h1] at hf1
  dsimp only at hf1
  dsimp only
  rcases h2 : ipStep bd1 r.RemoteAddr now with ⟨o2, bd2⟩
  have ho2 := ipStep_none bd1 r.RemoteAddr now
    (fun irc hirc => hip irc (hf1.1.symm.trans hirc))
  rw [h2] at ho2
  dsimp only at ho2
  subst ho2
  have hf2 := ipStep_fields bd1 r.RemoteAddr now
  rw [h2] at hf2
  dsimp only at hf2
  dsimp only
  rcases h3 : dnsStep bd2 r.RemoteAddr now dnsOutcome with ⟨o3, bd3⟩
  have hch : bd2.reverseDNSChecker = bd.reverseDNSChecker := hf2.1.trans hf1.2.1
  have ho3 := dnsStep_none bd2 r.RemoteAddr now dnsOutcome
    (fun rdns hrdns => hdns rdns (hch.symm.trans hrdns))
  rw [h3] at ho3
  dsimp only at ho3
  subst ho3
  have hf3 := dnsStep_fields bd2 r.RemoteAddr now dnsOutcome
  rw [h3] at hf3
  dsimp only at hf3
  dsimp only
  exact hdu bd3 (hf3.1.trans (hf2.2.1.trans hf1.2.2.1))
    (hf3.2.trans (hf2.2.2.2.trans hf1.2.2.2.2))

/-! ### Reverse-DNS verification logic -/

theorem dns_getCached_fields (rdns : ReverseDNSChecker) (k : String) (now : Int) :
    ((rdns.getCachedResult k now).2).lookupAddr = rdns.lookupAddr ∧
    ((rdns.getCachedResult k now).2).lookupIPAddr = rdns.lookupIPAddr ∧
    ((rdns.getCachedResult k now).2).botDomainPatterns = rdns.botDomainPatterns ∧
    ((rdns.getCachedResult k now).2).enabled = rdns.enabled ∧
    ((rdns.getCachedResult k now).2).cacheTTL = rdns.cacheTTL ∧
    ((rdns.getCachedResult k now).2).timeout = rdns.timeout := by
  unfold ReverseDNSChecker.getCachedResult
  split
  · exact ⟨rfl, rfl, rfl, rfl, rfl, rfl⟩
  · split <;> exact ⟨rfl, rfl, rfl, rfl, rfl, rfl⟩

theorem processJob_congr (a b : ReverseDNSChecker) (hA : a.lookupAddr = b.lookupAddr)
    (hI : a.lookupIPAddr = b.lookupIPAddr) (hP : a.botDomainPatterns = b.botDomainPatterns)
    (ipS : String) (now : Int) : processJob a ipS now = processJob b ipS now := by
  unfold processJob ReverseDNSChecker.lookupHostname ReverseDNSChecker.lookupIP
    ReverseDNSChecker.determineBotTypeByHostname
  rw [hA, hI, hP]

/-- A hostname is classified into a bot category exactly when some
configured category pattern matches it, provided no category key is the
unknown tag (the source registers search, social, seo and monitoring). -/
theorem det_ne_unknown_iff (rdns : ReverseDNSChecker) (hostname : String)
    (hkeys : ∀ p ∈ rdns.botDomainPatterns, p.1 ≠ BotType.unknown) :
    (rdns.determineBotTypeByHostname hostname ≠ .unknown ↔
      ∃ p ∈ rdns.botDomainPatterns, ∃ re ∈ p.2,
        re.matchString (goToLower hostname) = true) := by
  have hval : rdns.determineBotTypeByHostname hostname =
      (match rdns.botDomainPatterns.find?
          (fun p => p.2.any (fun pattern => pattern.matchString (goToLower hostname))) with
       | some p => p.1
       | none => BotType.unknown) := rfl
  rw [hval]
  cases hfind : rdns.botDomainPatterns.find?
      (fun p => p.2.any (fun pattern => pattern.matchString (goToLower hostname))) with
  | none =>
    constructor
    · intro hne
      exact absurd rfl hne
    · rintro ⟨p, hmem, re, hre, hmatch⟩
      exfalso
      have hnone := List.find?_eq_none.mp hfind p hmem
      apply hnone
      simp only [List.any_eq_true]
      exact ⟨re, hre, hmatch⟩
  | some p =>
    constructor
    · intro _
      have hp := List.find?_some hfind
      have hmem := List.mem_of_find?_eq_some hfind
      refine ⟨p, hmem, ?_⟩
      simpa [List.any_eq_true] using hp
    · intro _
      exact hkeys p (List.mem_of_find?_eq_some hfind)

/-- Core of the double-lookup verification: the worker pipeline reports a
bot exactly when the PTR and forward lookups succeed, the forward address
round-trips to the original IP, and a category pattern matches the
hostname; a positive verdict carries confidence 0.95. -/
theorem dns_pipeline_isBot (rdns : ReverseDNSChecker) (cleanIP : String) (now : Int)
    (hkeys : ∀ p ∈ rdns.botDomainPatterns, p.1 ≠ BotType.unknown) :
    ((rdns.processDNSResult (processJob rdns cleanIP now)).IsBot = true ↔
      ∃ hostname verifiedIP, rdns.lookupHostname cleanIP = .ok hostname ∧
        rdns.lookupIP hostname = .ok verifiedIP ∧
        verifyIPMatch cleanIP verifiedIP = true ∧
        ∃ p ∈ rdns.botDomainPatterns, ∃ re ∈ p.2,
          re.matchString (goToLower hostname) = true) ∧
    ((rdns.processDNSResult (processJob rdns cleanIP now)).IsBot = true →
      (rdns.processDNSResult (processJob rdns cleanIP now)).Confidence = 19/20) := by
  unfold processJob
  cases hh : rdns.lookupHostname cleanIP with
  | error e =>
    refine ⟨⟨fun habs => Bool.noConfusion habs, ?_⟩, fun habs => Bool.noConfusion habs⟩
    rintro ⟨h, v, hok, _⟩
    exact Except.noConfusion hok
  | ok hostname =>
    dsimp only
    cases hf : rdns.lookupIP hostname with
    | error e =>
      refine ⟨⟨fun habs => Bool.noConfusion habs, ?_⟩, fun habs => Bool.noConfusion habs⟩
      rintro ⟨h, v, hok, hfw, _⟩
      injection hok with hok
      subst hok
      rw [hf] at hfw
      exact Except.noConfusion hfw
    | ok verifiedIP =>
      dsimp only
      cases hvalid : verifyIPMatch cleanIP verifiedIP &&
          decide (rdns.determineBotTypeByHostname hostname ≠ BotType.unknown) with
      | true =>
        have hsplit := (Bool.and_eq_true _ _).mp hvalid
        have hdet : rdns.determineBotTypeByHostname hostname ≠ .unknown :=
          of_decide_eq_true hsplit.2
        refine ⟨⟨fun _ => ?_, fun _ => rfl⟩, fun _ => rfl⟩
        exact ⟨hostname, verifiedIP, rfl, hf, hsplit.1,
          (det_ne_unknown_iff rdns hostname hkeys).mp hdet⟩
      | false =>
        refine ⟨⟨fun habs => Bool.noConfusion habs, ?_⟩, fun habs => Bool.noConfusion habs⟩
        rintro ⟨h, v, hok, hfw, hmatch, hcat⟩
        injection hok with hok
        subst hok
        rw [hf] at hfw
        injection hfw with hfw
        subst hfw
        have hdet : rdns.determineBotTypeByHostname hostname ≠ .unknown :=
          (det_ne_unknown_iff rdns hostname hkeys).mpr hcat
        rw [hmatch, decide_eq_true hdet] at hvalid
        exact Bool.noConfusion hvalid

theorem CheckDNS_miss_eq (rdns : ReverseDNSChecker) (ip : String) (now : Int)
    (outcome : DNSOutcome) (hen : rdns.enabled = true) (hne : ¬ ip = "")
    (hmiss : (rdns.getCachedResult (extractIP ip) now).1 = none) :
    rdns.CheckDNS ip now outcome =
      (let rdns1 := (rdns.getCachedResult (extractIP ip) now).2
       match outcome with
       | .queueFull =>
         ((⟨false, "", "", "", .unknown, 0, "DNS queue full", 0, now⟩ : DNSCheckResult), none,
          rdns1.setCachedResult (extractIP ip)
            ⟨false, "", "", "", .unknown, 0, "DNS queue full", 0, now⟩ now)
       | .timedOut =>
         ((⟨false, "", "", "", .unknown, 0, "DNS timeout", rdns1.timeout, now⟩ : DNSCheckResult), none,
          rdns1.setCachedResult (extractIP ip)
            ⟨false, "", "", "", .unknown, 0, "DNS timeout", rdns1.timeout, now⟩ now)
       | .delivered =>
         (rdns1.processDNSResult (processJob rdns1 (extractIP ip) now), none,
          rdns1.setCachedResult (extractIP ip)
            (rdns1.processDNSResult (processJob rdns1 (extractIP ip) now)) now)) := by
  have hpair : rdns.getCachedResult (extractIP ip) now =
      (none, (rdns.getCachedResult (extractIP ip) now).2) := by
    rw [← hmiss]
  unfold ReverseDNSChecker.CheckDNS
  rw [hen]
  rw [if_neg (by decide : ¬((!true) = true))]
  rw [if_neg hne]
  dsimp only
  rw [hpair]

/-- C3: reverse-DNS verification accepts an IP as a bot only when the PTR
hostname exists, its forward resolution reproduces the original IP, and
the hostname matches a per-category bot-domain pattern; a positive
verdict carries confidence 0.95, and any failed leg yields IsBot=false. -/
theorem c3_dns_double_verification (rdns : ReverseDNSChecker) (ip : String) (now : Int)
    (outcome : DNSOutcome) (hen : rdns.enabled = true) (hne : ¬ ip = "")
    (hmiss : (rdns.getCachedResult (extractIP ip) now).1 = none)
    (hkeys : ∀ p ∈ rdns.botDomainPatterns, p.1 ≠ BotType.unknown) :
    (((rdns.CheckDNS ip now outcome).1).IsBot = true ↔
      (outcome = DNSOutcome.delivered ∧
       ∃ hostname verifiedIP,
         rdns.lookupHostname (extractIP ip) = .ok hostname ∧
         rdns.lookupIP hostname = .ok verifiedIP ∧
         verifyIPMatch (extractIP ip) verifiedIP = true ∧
         ∃ p ∈ rdns.botDomainPatterns, ∃ re ∈ p.2,
           re.matchString (goToLower hostname) = true)) ∧
    (((rdns.CheckDNS ip now outcome).1).IsBot = true →
      ((rdns.CheckDNS ip now outcome).1).Confidence = 19/20) := by
  rw [CheckDNS_miss_eq rdns ip now outcome hen hne hmiss]
  cases outcome with
  | queueFull =>
    refine ⟨⟨fun habs => Bool.noConfusion habs, ?_⟩, fun habs => Bool.noConfusion habs⟩
    rintro ⟨ho, _⟩
    exact DNSOutcome.noConfusion ho
  | timedOut =>
    refine ⟨⟨fun habs => Bool.noConfusion habs, ?_⟩, fun habs => Bool.noConfusion habs⟩
    rintro ⟨ho, _⟩
    exact DNSOutcome.noConfusion ho
  | delivered =>
    dsimp only
    have hfields := dns_getCached_fields rdns (extractIP ip) now
    have hcongr : processJob ((rdns.getCachedResult (extractIP ip) now).2) (extractIP ip) now
        = processJob rdns (extractIP ip) now :=
      processJob_congr _ _ hfields.1 hfields.2.1 hfields.2.2.1 _ _
    have hpd : ∀ d, ((rdns.getCachedResult (extractIP ip) now).2).processDNSResult d
        = rdns.processDNSResult d := fun _ => rfl
    rw [hpd, hcongr]
    have hmain := dns_pipeline_isBot rdns (extractIP ip) now hkeys
    exact ⟨⟨fun hb => ⟨rfl, hmain.1.mp hb⟩, fun hx => hmain.1.mpr hx.2⟩, hmain.2⟩

/-- C3 at a concrete checker: the Googlebot fixture, whose PTR record for
66.249.66.1 round-trips and matches the search pattern, is reported as a
bot at confidence 0.95. -/
theorem c3_dns_double_verification_witness :
    ((fixtureDNSChecker.CheckDNS "66.249.66.1" 0 DNSOutcome.delivered).1).IsBot = true ∧
    ((fixtureDNSChecker.CheckDNS "66.249.66.1" 0 DNSOutcome.delivered).1).Confidence = 19/20 := by
  have h := c3_dns_double_verification fixtureDNSChecker "66.249.66.1" 0 .delivered
    rfl (by decide) rfl (by decide)
  have hb : ((fixtureDNSChecker.CheckDNS "66.249.66.1" 0 DNSOutcome.delivered).1).IsBot = true := by
    apply h.1.mpr
    refine ⟨rfl, "crawl-66-249-66-1.googlebot.com", "66.249.66.1", ?_, ?_, ?_,
      (BotType.search, [fixtureGooglebotRegex]), ?_, fixtureGooglebotRegex, ?_, ?_⟩
    · rfl
    · rfl
    · decide
    · exact List.mem_cons_self _ _
    · exact List.mem_cons_self _ _
    · rfl
  exact ⟨hb, h.2 hb⟩

theorem dns_setCached_fields (rdns : ReverseDNSChecker) (ip : String)
    (res : DNSCheckResult) (now : Int) :
    (rdns.setCachedResult ip res now).enabled = rdns.enabled ∧
    (rdns.setCachedResult ip res now).cacheTTL = rdns.cacheTTL := by
  unfold ReverseDNSChecker.setCachedResult ReverseDNSChecker.cleanupCache
  dsimp only
  split
  · exact ⟨rfl, rfl⟩
  · exact ⟨rfl, rfl⟩

theorem setCached_alookup (rdns : ReverseDNSChecker) (ip : String)
    (res : DNSCheckResult) (now : Int) :
    alookup ((rdns.setCachedResult ip res now).cache) ip = some res := by
  unfold ReverseDNSChecker.setCachedResult
  dsimp only
  exact alookup_aset_self _ _ _

theorem getCached_hit (rdns : ReverseDNSChecker) (k : String) (later : Int)
    (result : DNSCheckResult) (hl : alookup rdns.cache k = some result)
    (hf : later - result.Timestamp < rdns.cacheTTL) :
    rdns.getCachedResult k later = (some result, rdns) := by
  unfold ReverseDNSChecker.getCachedResult
  rw [hl]
  dsimp only
  rw [if_pos hf]

theorem CheckDNS_hit_eq (rdns rdns2 : ReverseDNSChecker) (ip : String) (later : Int)
    (outcome : DNSOutcome) (result : DNSCheckResult) (hen : rdns.enabled = true)
    (hne : ¬ ip = "")
    (hpair : rdns.getCachedResult (extractIP ip) later = (some result, rdns2)) :
    rdns.CheckDNS ip later outcome = (result, none, rdns2) := by
  unfold ReverseDNSChecker.CheckDNS
  rw [hen]
  rw [if_neg (by decide : ¬((!true) = true))]
  rw [if_neg hne]
  dsimp only
  rw [hpair]

/-- C6: on a queue-full outcome CheckDNS fails open — the verdict is not a
bot, carries the queue-full error note, raises no error value — and the
verdict is stored in the DNS cache under the cleaned IP, so that any
later call within the cache TTL returns the stored verdict without
running the check again (whatever the queue would do then). -/
theorem c6_queue_full_fail_open (rdns : ReverseDNSChecker) (ip : String) (now later : Int)
    (hen : rdns.enabled = true) (hne : ¬ ip = "")
    (hmiss : (rdns.getCachedResult (extractIP ip) now).1 = none)
    (hfresh : later - now < rdns.cacheTTL) :
    (rdns.CheckDNS ip now DNSOutcome.queueFull).1 =
      ⟨false, "", "", "", .unknown, 0, "DNS queue full", 0, now⟩ ∧
    (rdns.CheckDNS ip now DNSOutcome.queueFull).2.1 = none ∧
    alookup ((rdns.CheckDNS ip now DNSOutcome.queueFull).2.2).cache (extractIP ip) =
      some ((rdns.CheckDNS ip now DNSOutcome.queueFull).1) ∧
    ∀ outcome2, ((rdns.CheckDNS ip now DNSOutcome.queueFull).2.2).CheckDNS ip later outcome2 =
      ((rdns.CheckDNS ip now DNSOutcome.queueFull).1, none,
       (rdns.CheckDNS ip now DNSOutcome.queueFull).2.2) := by
  rw [CheckDNS_miss_eq rdns ip now DNSOutcome.queueFull hen hne hmiss]
  dsimp only
  have hfields := dns_getCached_fields rdns (extractIP ip) now
  have hset := dns_setCached_fields ((rdns.getCachedResult (extractIP ip) now).2)
    (extractIP ip) ⟨false, "", "", "", .unknown, 0, "DNS queue full", 0, now⟩ now
  refine ⟨rfl, rfl, setCached_alookup _ _ _ _, fun outcome2 => ?_⟩
  apply CheckDNS_hit_eq
  · rw [hset.1, hfields.2.2.2.1]
    exact hen
  · exact hne
  · apply getCached_hit
    · exact setCached_alookup _ _ _ _
    · rw [hset.2, hfields.2.2.2.2.1]
      exact hfresh

/-- C6 at a concrete checker: a queue-full check on the Googlebot fixture
returns a not-bot verdict annotated queue-full, and one nanosecond later
a second call — even one whose job would be delivered — replays the
cached verdict. -/
theorem c6_queue_full_fail_open_witness :
    ((fixtureDNSChecker.CheckDNS "66.249.66.1" 0 DNSOutcome.queueFull).1).IsBot = false ∧
    ((fixtureDNSChecker.CheckDNS "66.249.66.1" 0 DNSOutcome.queueFull).1).Error = "DNS queue full" ∧
    (((fixtureDNSChecker.CheckDNS "66.249.66.1" 0 DNSOutcome.queueFull).2.2).CheckDNS
        "66.249.66.1" 1 DNSOutcome.delivered).1 =
      (fixtureDNSChecker.CheckDNS "66.249.66.1" 0 DNSOutcome.queueFull).1 := by
  have h := c6_queue_full_fail_open fixtureDNSChecker "66.249.66.1" 0 1 rfl (by decide) rfl
    (by decide)
  refine ⟨?_, ?_, ?_⟩
  · rw [h.1]
  · rw [h.1]
  · rw [h.2.2.2 DNSOutcome.delivered]

/-- C2 counterexample: a request with empty user-agent, an IP outside all
(zero) configured ranges and an empty referrer, against a detector whose
referrer checker is present and enabled (the default configuration),
is classified DirectUser but with detection method "referrer", not
"fallback". -/
theorem c2_empty_request_direct_counterexample :
    ((fixtureDetectorReferrerOn.performDetection ⟨"203.0.113.5", "", ""⟩ 0
        DNSOutcome.queueFull).1).UserType = UserType.direct ∧
    ((fixtureDetectorReferrerOn.performDetection ⟨"203.0.113.5", "", ""⟩ 0
        DNSOutcome.queueFull).1).DetectionMethod = "referrer" ∧
    ¬ ((fixtureDetectorReferrerOn.performDetection ⟨"203.0.113.5", "", ""⟩ 0
        DNSOutcome.queueFull).1).DetectionMethod = "fallback" := by
  decide

/-- The amended C2 at a concrete detector: the empty request really is a
non-bot direct user. -/
theorem c2_empty_request_direct_witness :
    ((fixtureDetectorReferrerOn.performDetection ⟨"203.0.113.5", "", ""⟩ 0
        DNSOutcome.queueFull).1).UserType = UserType.direct ∧
    ((fixtureDetectorReferrerOn.performDetection ⟨"203.0.113.5", "", ""⟩ 0
        DNSOutcome.queueFull).1).IsBot = false := by
  have h := c2_empty_request_direct fixtureDetectorReferrerOn ⟨"203.0.113.5", "", ""⟩ 0
    DNSOutcome.queueFull rfl
    (fun irc hirc => by
      have h2 := Option.some.inj hirc
      subst h2
      decide)
    (fun rdns hrdns => Option.noConfusion hrdns)
    rfl
    (fun rc hrc2 => by
      have h2 := Option.some.inj hrc2
      subst h2
      rfl)
  exact ⟨h.1, h.2.1⟩

end BotRedirect
